import Mathlib

/-!
# Entity-component manager: templated queries and the view cache

A shallow embedding of `include/ignition/gazebo/detail/EntityComponentManager.hh`.
The header holds the templated members of `EntityComponentManager`: the query
operations (`Each`, `EachNew`, `EachErased`, `EachNoCache`, `EntityByComponents`)
and the view lookup `FindView`, which builds and memoises a `detail::View` per set
of component type ids.

The non-templated members these templates call (`Entities`, `EntityMatches`,
`IsNewEntity`, `IsMarkedForErasure`, `EntityComponentIdFromType`,
`ComponentImplementation`) are declared in another header and defined in a
translation unit that is not part of the available source. They only read the
entity table, so a store state records their answers as fields. The class
`detail::View` and the two private cache helpers are modelled from the
specification; each such definition says so. So are the component storage and
the members `CreateComponent` calls to register a type and to create and bind a
component (`HasComponentType`, `RegisterComponentType`,
`CreateComponentImplementation`).
-/

namespace ignition.gazebo

/-! ## Identifiers -/

/-- An entity is an integer identifier; the code only stores and compares it. -/
abbrev Entity := Nat

/-- Identifier of a component type. -/
abbrev ComponentTypeId := Nat

/-- Identifier of a component inside the storage of its type. It is a signed
integer: `AddComponentsToView` tests `compId >= 0`. -/
abbrev ComponentId := Int

/-- A component is addressed by its type id and its id within that type. -/
abbrev ComponentKey := ComponentTypeId × ComponentId

/-- The key of the view cache, `std::set<ComponentTypeId>`. -/
abbrev ComponentTypeKey := Finset ComponentTypeId

/-- The value held by a component. The code only compares values (`!=`) and
hands out pointers to them, so a value is abstracted to a number. A pointer to a
component is an `Option ComponentData`; `none` is the null pointer. -/
abbrev ComponentData := Nat

/-- What `typeid(T)` gives for a C++ type `T`: the type is identified by its
name, and `hash_code()` is a number attached to it. -/
structure TypeInfo where
  name : String
  hash_code : Nat
deriving DecidableEq, Repr

/-- `EntityComponentManager::ComponentType<ComponentTypeT>()`:
`return typeid(ComponentTypeT).hash_code();`. -/
def ComponentType (T : TypeInfo) : ComponentTypeId :=
  T.hash_code

/-- The local `types` of `FindView` and `EachNoCache`:
`std::set<ComponentTypeId>{this->ComponentType<ComponentTypeTs>()...}`. -/
def typesOf (Ts : List TypeInfo) : ComponentTypeKey :=
  (Ts.map ComponentType).toFinset

/-! ## Views -/

/-- Modelled from the spec: the class `detail::View` is not part of the available
source. A view "holds three entity lists — all matching, newly matching,
marked-for-erasure — and, per entity, the resolved component pointers for the
queried types"; the component entries are the `(entity, type id, component id)`
triples that `AddComponent` receives. -/
structure View where
  entities : List Entity := []
  newEntities : List Entity := []
  toEraseEntities : List Entity := []
  components : List ((Entity × ComponentTypeId) × ComponentId) := []
deriving DecidableEq, Repr

/-- Modelled from the spec: `View::AddEntity(entity, isNew)` is not part of the
available source. "Entities that pass are added, with their new flag copied from
the entity table": the entity joins the all list, and the new list when the flag
is set. -/
def View.AddEntity (v : View) (entity : Entity) (isNew : Bool) : View :=
  { v with
    entities := v.entities ++ [entity]
    newEntities := if isNew then v.newEntities ++ [entity] else v.newEntities }

/-- Modelled from the spec: `View::AddEntityToErased(entity)` is not part of the
available source. The entity joins the marked-for-erasure list. -/
def View.AddEntityToErased (v : View) (entity : Entity) : View :=
  { v with toEraseEntities := v.toEraseEntities ++ [entity] }

/-- Modelled from the spec: `View::AddComponent(entity, typeId, compId)` is not
part of the available source. The view records the binding it is given. -/
def View.AddComponent (v : View) (entity : Entity) (typeId : ComponentTypeId)
    (compId : ComponentId) : View :=
  { v with components := v.components ++ [((entity, typeId), compId)] }

/-! ## Component storage -/

/-- Modelled from the spec: the class `ComponentStorage<ComponentTypeT>` is not
part of the available source. It is "a container for all instances of one
component type, keyed by a dense component id"; ids "are never reused", so the
storage counts the ids it has issued. -/
structure ComponentStorage where
  issued : Nat := 0
  instances : List (ComponentId × ComponentData) := []
deriving DecidableEq, Repr

/-- Modelled from the spec: `Create(value) -> ComponentId` "appends a new
instance and returns a stable handle". -/
def ComponentStorage.Create (st : ComponentStorage) (data : ComponentData) :
    ComponentId × ComponentStorage :=
  ((st.issued : Int),
    { issued := st.issued + 1, instances := st.instances ++ [((st.issued : Int), data)] })

/-- Modelled from the spec: `Remove(id)` "invalidates the handle": the instance
with that id leaves the storage. -/
def ComponentStorage.Remove (st : ComponentStorage) (id : ComponentId) : ComponentStorage :=
  { st with instances := st.instances.filter fun inst => inst.1 != id }

/-! ## Store state -/

/-- The state of an `EntityComponentManager` as the templates of the header see
it. The first seven fields are the answers of the non-templated members the
query templates call; `views` is the view cache,
`std::map<ComponentTypeKey, View>`, as an association list read with
`List.lookup`. The last two fields are the tables `CreateComponent` works on
through members defined outside the available source: the registry of component
storages by type id and, per entity, the keys of the components bound to it. -/
structure EntityComponentManager where
  /-- `Entities()`: the live entities, in iteration order. -/
  Entities : List Entity
  /-- `EntityMatches(entity, types)`. -/
  EntityMatches : Entity → ComponentTypeKey → Bool
  /-- `IsNewEntity(entity)`. -/
  IsNewEntity : Entity → Bool
  /-- `IsMarkedForErasure(entity)`. -/
  IsMarkedForErasure : Entity → Bool
  /-- `EntityComponentIdFromType(entity, typeId)`; negative when there is none. -/
  EntityComponentIdFromType : Entity → ComponentTypeId → ComponentId
  /-- `ComponentImplementation(entity, typeId)`: pointer to the component. -/
  ComponentImplementation : Entity → ComponentTypeId → Option ComponentData
  /-- `ComponentImplementation(key)`: pointer to the component with that key. -/
  ComponentImplementationByKey : ComponentKey → Option ComponentData
  /-- The view cache. -/
  views : List (ComponentTypeKey × View)
  /-- The registry: the storage registered for each component type id. -/
  components : List (ComponentTypeId × ComponentStorage) := []
  /-- The binding table: the component keys bound to each entity. -/
  entityComponents : Entity → List ComponentKey := fun _ => []

namespace EntityComponentManager

/-- `Component<ComponentTypeT>(entity)`:
`ComponentImplementation(_entity, ComponentType<ComponentTypeT>())`. -/
def Component (ecm : EntityComponentManager) (T : TypeInfo) (entity : Entity) :
    Option ComponentData :=
  ecm.ComponentImplementation entity (ComponentType T)

/-- `Component<ComponentTypeT>(key)`: `ComponentImplementation(_key)`. -/
def ComponentByKey (ecm : EntityComponentManager) (key : ComponentKey) :
    Option ComponentData :=
  ecm.ComponentImplementationByKey key

/-- Modelled from the spec: the private, non-templated
`FindView(types, viewIter)` is not part of the available source. It looks the
key up in the cache; `some v` stands for `true` with `viewIter->second = v`. -/
def FindViewByTypes (ecm : EntityComponentManager) (types : ComponentTypeKey) :
    Option View :=
  ecm.views.lookup types

/-- Modelled from the spec: the private `AddView(types, view)` is not part of the
available source. The cache "memoizes, for each distinct set of component types
ever queried" one view: the view is stored under the key and the stored view is
handed back. -/
def AddView (ecm : EntityComponentManager) (types : ComponentTypeKey) (view : View) :
    View × EntityComponentManager :=
  (view, { ecm with views := (types, view) :: ecm.views })

/-- Both overloads of `AddComponentsToView<FirstComponent, RemainingComponents...>`.
The second component of the result lists the `(entity, type id)` pairs reported
through `ignerr`. There is no overload for an empty pack. -/
def AddComponentsToView (ecm : EntityComponentManager) :
    List TypeInfo → View → Entity → View × List (Entity × ComponentTypeId)
  | [], view, _ => (view, [])
  | [First], view, entity =>
    let typeId := ComponentType First
    let compId := ecm.EntityComponentIdFromType entity typeId
    if compId ≥ 0 then (view.AddComponent entity typeId compId, [])
    else (view, [(entity, typeId)])
  | First :: Second :: Remaining, view, entity =>
    let typeId := ComponentType First
    let compId := ecm.EntityComponentIdFromType entity typeId
    let step : View × List (Entity × ComponentTypeId) :=
      if compId ≥ 0 then (view.AddComponent entity typeId compId, [])
      else (view, [(entity, typeId)])
    let rest := ecm.AddComponentsToView (Second :: Remaining) step.1 entity
    (rest.1, step.2 ++ rest.2)

/-- The body of the loop of `FindView<ComponentTypeTs...>` for one entity. -/
def FindView.body (ecm : EntityComponentManager) (Ts : List TypeInfo) (view : View)
    (entity : Entity) : View :=
  if ecm.EntityMatches entity (typesOf Ts) then
    let view := view.AddEntity entity (ecm.IsNewEntity entity)
    let view :=
      if ecm.IsMarkedForErasure entity then view.AddEntityToErased entity else view
    (ecm.AddComponentsToView Ts view entity).1
  else view

/-- The view `FindView<ComponentTypeTs...>` fills when none is cached: one pass
over `Entities()` starting from an empty view. -/
def FindView.build (ecm : EntityComponentManager) (Ts : List TypeInfo) : View :=
  ecm.Entities.foldl (FindView.body ecm Ts) {}

/-- `FindView<ComponentTypeTs...>()`. The member is `const` but writes the cache,
so the store after the call is returned with the view. -/
def FindView (ecm : EntityComponentManager) (Ts : List TypeInfo) :
    View × EntityComponentManager :=
  let types := typesOf Ts
  match ecm.FindViewByTypes types with
  | none => ecm.AddView types (FindView.build ecm Ts)
  | some view => (view, ecm)

end EntityComponentManager

/-- Modelled from the spec: `View::Component<T>(entity, ecm)` is not part of the
available source. The view resolves the pointer "from per-type storage via each
entity's stored (type, component-id) bindings". -/
def View.Component (v : View) (T : TypeInfo) (entity : Entity)
    (ecm : EntityComponentManager) : Option ComponentData :=
  match v.components.lookup (entity, ComponentType T) with
  | some compId => ecm.ComponentByKey (ComponentType T, compId)
  | none => none

/-! ## Callbacks and loops -/

/-- A callback `bool(const Entity &, ComponentTypeTs *...)`. It receives the
entity and one pointer per queried type, may carry state of its own (`σ`), and
answers whether the iteration continues. -/
abbrev Callback (σ : Type) := Entity → List (Option ComponentData) → σ → Bool × σ

/-- The callback `f` with a log: every invocation appends the entity and the
answer `f` gave. The answers and the state of `f` are untouched. -/
def Callback.traced {σ : Type} (f : Callback σ) : Callback (σ × List (Entity × Bool)) :=
  fun entity comps st =>
    let r := f entity comps st.1
    (r.1, (r.2, st.2 ++ [(entity, r.1)]))

/-- The loop `for (entity : range) { if (!body(entity)) break; }`. -/
def rangeFor {σ : Type} (body : Entity → σ → Bool × σ) : List Entity → σ → σ
  | [], s => s
  | entity :: rest, s =>
    match body entity s with
    | (true, s') => rangeFor body rest s'
    | (false, s') => s'

namespace EntityComponentManager

/-- `EachNoCache<ComponentTypeTs...>(_f)`, non-const overload. -/
def EachNoCache {σ : Type} (ecm : EntityComponentManager) (Ts : List TypeInfo)
    (f : Callback σ) (s : σ) : σ × EntityComponentManager :=
  (rangeFor (fun entity st =>
      let types := typesOf Ts
      if ecm.EntityMatches entity types then
        f entity (Ts.map fun T => ecm.Component T entity) st
      else (true, st)) ecm.Entities s, ecm)

/-- `EachNoCache<ComponentTypeTs...>(_f) const`. -/
def EachNoCache_const {σ : Type} (ecm : EntityComponentManager) (Ts : List TypeInfo)
    (f : Callback σ) (s : σ) : σ × EntityComponentManager :=
  (rangeFor (fun entity st =>
      let types := typesOf Ts
      if ecm.EntityMatches entity types then
        f entity (Ts.map fun T => ecm.Component T entity) st
      else (true, st)) ecm.Entities s, ecm)

/-- `Each<ComponentTypeTs...>(_f)`, non-const overload. -/
def Each {σ : Type} (ecm : EntityComponentManager) (Ts : List TypeInfo)
    (f : Callback σ) (s : σ) : σ × EntityComponentManager :=
  let found := ecm.FindView Ts
  (rangeFor (fun entity st =>
      f entity (Ts.map fun T => found.1.Component T entity found.2) st)
    found.1.entities s, found.2)

/-- `Each<ComponentTypeTs...>(_f) const`. -/
def Each_const {σ : Type} (ecm : EntityComponentManager) (Ts : List TypeInfo)
    (f : Callback σ) (s : σ) : σ × EntityComponentManager :=
  let found := ecm.FindView Ts
  (rangeFor (fun entity st =>
      f entity (Ts.map fun T => found.1.Component T entity found.2) st)
    found.1.entities s, found.2)

/-- `EachNew<ComponentTypeTs...>(_f)`, non-const overload. -/
def EachNew {σ : Type} (ecm : EntityComponentManager) (Ts : List TypeInfo)
    (f : Callback σ) (s : σ) : σ × EntityComponentManager :=
  let found := ecm.FindView Ts
  (rangeFor (fun entity st =>
      f entity (Ts.map fun T => found.1.Component T entity found.2) st)
    found.1.newEntities s, found.2)

/-- `EachNew<ComponentTypeTs...>(_f) const`. -/
def EachNew_const {σ : Type} (ecm : EntityComponentManager) (Ts : List TypeInfo)
    (f : Callback σ) (s : σ) : σ × EntityComponentManager :=
  let found := ecm.FindView Ts
  (rangeFor (fun entity st =>
      f entity (Ts.map fun T => found.1.Component T entity found.2) st)
    found.1.newEntities s, found.2)

/-- `EachErased<ComponentTypeTs...>(_f) const`. -/
def EachErased {σ : Type} (ecm : EntityComponentManager) (Ts : List TypeInfo)
    (f : Callback σ) (s : σ) : σ × EntityComponentManager :=
  let found := ecm.FindView Ts
  (rangeFor (fun entity st =>
      f entity (Ts.map fun T => found.1.Component T entity found.2) st)
    found.1.toEraseEntities s, found.2)

/-- The `ForEach` call inside `EntityByComponents` for one entity: every desired
component is compared with the entity's component of the same type, in order and
without stopping at the first difference. The result is the flag `different`;
`none` stands for the dereference of a null pointer in `*entityComponent`. -/
def EntityByComponents.compare (ecm : EntityComponentManager) (entity : Entity) :
    List (TypeInfo × ComponentData) → Bool → Option Bool
  | [], different => some different
  | (T, desired) :: rest, different =>
    match ecm.Component T entity with
    | none => none
    | some entityComponent =>
      EntityByComponents.compare ecm entity rest
        (if entityComponent ≠ desired then true else different)

/-- The loop of `EntityByComponents` over `view.entities`, with `result`
initialised to `kNullEntity`. -/
def EntityByComponents.scan (ecm : EntityComponentManager) (kNullEntity : Entity)
    (desired : List (TypeInfo × ComponentData)) : List Entity → Option Entity
  | [] => some kNullEntity
  | entity :: rest =>
    match EntityByComponents.compare ecm entity desired false with
    | none => none
    | some different =>
      if !different then some entity
      else EntityByComponents.scan ecm kNullEntity desired rest

/-- `EntityByComponents<ComponentTypeTs...>(_desiredComponents...)`. The desired
components are given with their types. The constant `kNullEntity` is declared
outside the available source and is a parameter. `none` stands for a null
pointer dereference; otherwise the entity returned and the store after the call. -/
def EntityByComponents (ecm : EntityComponentManager) (kNullEntity : Entity)
    (desired : List (TypeInfo × ComponentData)) :
    Option (Entity × EntityComponentManager) :=
  let found := ecm.FindView (desired.map Prod.fst)
  (EntityByComponents.scan found.2 kNullEntity desired found.1.entities).map
    fun result => (result, found.2)

/-! ## Observing a run -/

/-- The invocations `Each` makes of its callback, in order, each with the answer
the callback gave. -/
def Each.trace {σ : Type} (ecm : EntityComponentManager) (Ts : List TypeInfo)
    (f : Callback σ) (s : σ) : List (Entity × Bool) :=
  (ecm.Each Ts f.traced (s, [])).1.2

/-- The invocations `Each const` makes of its callback. -/
def Each_const.trace {σ : Type} (ecm : EntityComponentManager) (Ts : List TypeInfo)
    (f : Callback σ) (s : σ) : List (Entity × Bool) :=
  (ecm.Each_const Ts f.traced (s, [])).1.2

/-- The invocations `EachNew` makes of its callback. -/
def EachNew.trace {σ : Type} (ecm : EntityComponentManager) (Ts : List TypeInfo)
    (f : Callback σ) (s : σ) : List (Entity × Bool) :=
  (ecm.EachNew Ts f.traced (s, [])).1.2

/-- The invocations `EachNew const` makes of its callback. -/
def EachNew_const.trace {σ : Type} (ecm : EntityComponentManager) (Ts : List TypeInfo)
    (f : Callback σ) (s : σ) : List (Entity × Bool) :=
  (ecm.EachNew_const Ts f.traced (s, [])).1.2

/-- The invocations `EachErased` makes of its callback. -/
def EachErased.trace {σ : Type} (ecm : EntityComponentManager) (Ts : List TypeInfo)
    (f : Callback σ) (s : σ) : List (Entity × Bool) :=
  (ecm.EachErased Ts f.traced (s, [])).1.2

/-- The invocations `EachNoCache` makes of its callback. -/
def EachNoCache.trace {σ : Type} (ecm : EntityComponentManager) (Ts : List TypeInfo)
    (f : Callback σ) (s : σ) : List (Entity × Bool) :=
  (ecm.EachNoCache Ts f.traced (s, [])).1.2

/-- The invocations `EachNoCache const` makes of its callback. -/
def EachNoCache_const.trace {σ : Type} (ecm : EntityComponentManager) (Ts : List TypeInfo)
    (f : Callback σ) (s : σ) : List (Entity × Bool) :=
  (ecm.EachNoCache_const Ts f.traced (s, [])).1.2

/-- The store states that arise from an empty view cache. A query through
`FindView` may add a view. Every other member changes the entity table, which
the header does not touch; such a change may give the observers any new
answers and leaves the cache as it is ("once cached, a view is not proactively
kept in sync"). -/
inductive Reachable : EntityComponentManager → Prop
  | init (ecm : EntityComponentManager) (h : ecm.views = []) : Reachable ecm
  | query (ecm : EntityComponentManager) (Ts : List TypeInfo) (h : Reachable ecm) :
      Reachable (ecm.FindView Ts).2
  | change (ecm ecm' : EntityComponentManager) (h : Reachable ecm)
      (hv : ecm'.views = ecm.views) : Reachable ecm'

end EntityComponentManager

/-- A callback never requests a stop when every answer it gives is `true`. -/
def Callback.NeverStops {σ : Type} (f : Callback σ) : Prop :=
  ∀ entity comps s, (f entity comps s).1 = true

/-- The invocations of its body that the loop `rangeFor` makes, in order, each
with the answer the body gave. -/
def rangeFor.calls {σ : Type} (body : Entity → σ → Bool × σ) :
    List Entity → σ → List (Entity × Bool)
  | [], _ => []
  | entity :: rest, s =>
    match body entity s with
    | (true, s') => (entity, true) :: rangeFor.calls body rest s'
    | (false, _) => [(entity, false)]

/-- A log of invocations `tr` walks the list `l` in order and stops at the first
answer `false`: the entities invoked form an initial segment of `l`, every
answer but the last is `true`, and the walk ends before the end of `l` only on an
answer `false`. -/
def VisitsUntilStop (l : List Entity) (tr : List (Entity × Bool)) : Prop :=
  tr.map Prod.fst <+: l ∧
  (∀ c ∈ tr.dropLast, c.2 = true) ∧
  (tr.map Prod.fst = l ∨ tr.getLast?.map Prod.snd = some false)

/-- What the claim on `EntityByComponents` calls an entity "all of whose
components of the queried types compare equal to the supplied values": each
desired component is present on the entity with the desired value. -/
def ComponentsEqual (ecm : EntityComponentManager) (desired : List (TypeInfo × ComponentData))
    (entity : Entity) : Bool :=
  desired.all fun p => ecm.Component p.1 entity == some p.2

/-! ## Creating components -/

namespace EntityComponentManager

/-- Modelled from the spec: `HasComponentType(typeId)` is not part of the
available source. It is the registry's `HasType(typeId) -> bool`. -/
def HasComponentType (ecm : EntityComponentManager) (typeId : ComponentTypeId) : Bool :=
  (ecm.components.lookup typeId).isSome

/-- Modelled from the spec: `RegisterComponentType(typeId, storage)` is not part
of the available source. It registers the storage "for a previously-unseen
type" and is "idempotent if called again for the same id (no-op, not an
error)". -/
def RegisterComponentType (ecm : EntityComponentManager) (typeId : ComponentTypeId)
    (storage : ComponentStorage) : EntityComponentManager :=
  if ecm.HasComponentType typeId then ecm
  else { ecm with components := (typeId, storage) :: ecm.components }

/-- Modelled from the spec: `CreateComponentImplementation(entity, typeId, data)`
is not part of the available source. The storage of the type creates the
instance and the entity table binds it: "creating a component of a type the
entity already has replaces the prior binding and deletes the prior instance".
The answers of the entity table for this entity and type follow the new binding;
the view cache is left alone ("once cached, a view is not proactively kept in
sync"). Creating a component of a type without storage fails (`none`). -/
def CreateComponentImplementation (ecm : EntityComponentManager) (entity : Entity)
    (typeId : ComponentTypeId) (data : ComponentData) :
    Option (ComponentKey × EntityComponentManager) :=
  match ecm.components.lookup typeId with
  | none => none
  | some storage =>
    let prior := (ecm.entityComponents entity).filter fun k => k.1 == typeId
    let kept := (ecm.entityComponents entity).filter fun k => k.1 != typeId
    let created := (prior.foldl (fun st k => st.Remove k.2) storage).Create data
    let key : ComponentKey := (typeId, created.1)
    some (key,
      { ecm with
        components := ecm.components.map fun p => if p.1 = typeId then (typeId, created.2) else p
        entityComponents := fun e => if e = entity then kept ++ [key] else ecm.entityComponents e
        EntityMatches := fun e types =>
          if e = entity then ecm.EntityMatches e (types.erase typeId)
          else ecm.EntityMatches e types
        EntityComponentIdFromType := fun e t =>
          if e = entity ∧ t = typeId then created.1 else ecm.EntityComponentIdFromType e t
        ComponentImplementation := fun e t =>
          if e = entity ∧ t = typeId then some data else ecm.ComponentImplementation e t
        ComponentImplementationByKey := fun k =>
          if k = key then some data
          else if k ∈ prior then none
          else ecm.ComponentImplementationByKey k })

/-- `CreateComponent<ComponentTypeT>(_entity, _data)`. The storage passed to
`RegisterComponentType` is `new ComponentStorage<ComponentTypeT>()`, an empty
one. `none` stands for a failure of `CreateComponentImplementation`. -/
def CreateComponent (ecm : EntityComponentManager) (entity : Entity) (T : TypeInfo)
    (data : ComponentData) : Option (ComponentKey × EntityComponentManager) :=
  let typeId := ComponentType T
  let ecm := if !ecm.HasComponentType typeId then ecm.RegisterComponentType typeId {} else ecm
  ecm.CreateComponentImplementation entity typeId data

end EntityComponentManager

/-! ## Example stores -/

/-- A component type of the examples. -/
def Position : TypeInfo := ⟨"Position", 10⟩

/-- A second component type of the examples. -/
def Velocity : TypeInfo := ⟨"Velocity", 20⟩

/-- The component types bound to each entity of `exampleStore`: entities 1 and 3
have a position and a velocity, entity 2 only a position. -/
def exampleBindings : Entity → Finset ComponentTypeId
  | 1 => {10, 20}
  | 2 => {10}
  | 3 => {10, 20}
  | _ => ∅

/-- A store with three live entities and an empty view cache. Entity 3 is new,
entity 1 is marked for erasure, and the component of type `t` of entity `e` has
component id `e` and value `100 * e + t`. -/
def exampleStore : EntityComponentManager where
  Entities := [1, 2, 3]
  EntityMatches := fun e types => decide (types ⊆ exampleBindings e)
  IsNewEntity := fun e => e == 3
  IsMarkedForErasure := fun e => e == 1
  EntityComponentIdFromType := fun e t => if t ∈ exampleBindings e then (e : Int) else -1
  ComponentImplementation := fun e t => if t ∈ exampleBindings e then some (100 * e + t) else none
  ComponentImplementationByKey := fun key =>
    if 0 ≤ key.2 then some (100 * key.2.toNat + key.1) else none
  views := []

/-- The component types bound to each entity of `staleStore`: entity 1 has lost
its velocity. -/
def staleBindings : Entity → Finset ComponentTypeId
  | 1 => {10}
  | 2 => {10}
  | 3 => {10, 20}
  | _ => ∅

/-- The store `exampleStore` after a query for position and velocity has cached
its view and entity 1 has then lost its velocity: the cache is the one the query
left, the entity table answers for the new bindings. -/
def staleStore : EntityComponentManager :=
  { (exampleStore.FindView [Position, Velocity]).2 with
    EntityMatches := fun e types => decide (types ⊆ staleBindings e)
    EntityComponentIdFromType := fun e t => if t ∈ staleBindings e then (e : Int) else -1
    ComponentImplementation := fun e t =>
      if t ∈ staleBindings e then some (100 * e + t) else none }

/-- A callback that counts its invocations and never requests a stop. -/
def countAll : Callback Nat := fun _ _ n => (true, n + 1)

/-- A callback that counts its invocations and requests a stop at entity 2. -/
def stopAtTwo : Callback Nat := fun entity _ n => (entity != 2, n + 1)

end ignition.gazebo

namespace ignition.gazebo

open EntityComponentManager

/-! ## The loop -/

theorem rangeFor_traced {σ : Type} (body : Entity → σ → Bool × σ) (l : List Entity) :
    ∀ (s : σ) (log : List (Entity × Bool)),
      rangeFor (fun entity (st : σ × List (Entity × Bool)) =>
          ((body entity st.1).1, ((body entity st.1).2, st.2 ++ [(entity, (body entity st.1).1)])))
        l (s, log)
      = (rangeFor body l s, log ++ rangeFor.calls body l s) := by
  induction l with
  | nil => intro s log; simp [rangeFor, rangeFor.calls]
  | cons e es ih =>
    intro s log
    rcases hb : body e s with ⟨b, s'⟩
    cases b
    · simp [rangeFor, rangeFor.calls, hb]
    · simp [rangeFor, rangeFor.calls, hb, ih]

theorem rangeFor_skip {σ : Type} (p : Entity → Bool) (body : Entity → σ → Bool × σ)
    (l : List Entity) :
    ∀ s : σ, rangeFor (fun entity st => if p entity then body entity st else (true, st)) l s
      = rangeFor body (l.filter p) s := by
  induction l with
  | nil => intro s; simp [rangeFor]
  | cons e es ih =>
    intro s
    by_cases hp : p e = true
    · rcases hb : body e s with ⟨b, s'⟩
      cases b
      · simp [rangeFor, hp, hb]
      · simp [rangeFor, hp, hb, ih]
    · simp [rangeFor, hp, ih]

theorem calls_visitsUntilStop {σ : Type} (body : Entity → σ → Bool × σ) (l : List Entity) :
    ∀ s : σ, VisitsUntilStop l (rangeFor.calls body l s) := by
  induction l with
  | nil => intro s; simp [VisitsUntilStop, rangeFor.calls]
  | cons e es ih =>
    intro s
    rcases hb : body e s with ⟨b, s'⟩
    cases b
    · simp [VisitsUntilStop, rangeFor.calls, hb]
    · obtain ⟨h1, h2, h3⟩ := ih s'
      refine ⟨?_, ?_, ?_⟩
      · simpa [rangeFor.calls, hb] using h1
      · intro c hc
        simp only [rangeFor.calls, hb] at hc
        cases hcs : rangeFor.calls body es s' with
        | nil => simp [hcs] at hc
        | cons c' cs =>
          rw [hcs, List.dropLast_cons₂, List.mem_cons] at hc
          rcases hc with rfl | hc
          · rfl
          · exact h2 c (by rw [hcs]; exact hc)
      · rcases h3 with h3 | h3
        · left; simp [rangeFor.calls, hb, h3]
        · right
          cases hcs : rangeFor.calls body es s' with
          | nil => simp [hcs] at h3
          | cons c' cs =>
            simp only [rangeFor.calls, hb]
            rw [hcs] at h3 ⊢
            rw [List.getLast?_cons_cons]
            exact h3

theorem calls_neverStops {σ : Type} (body : Entity → σ → Bool × σ)
    (h : ∀ e s, (body e s).1 = true) (l : List Entity) :
    ∀ s : σ, (rangeFor.calls body l s).map Prod.fst = l := by
  induction l with
  | nil => intro s; simp [rangeFor.calls]
  | cons e es ih =>
    intro s
    rcases hb : body e s with ⟨b, s'⟩
    have hb' := h e s
    rw [hb] at hb'
    simp only at hb'
    subst hb'
    simp [rangeFor.calls, hb, ih]

/-! ## Building a view -/

theorem AddComponentsToView_lists (ecm : EntityComponentManager) (entity : Entity)
    (Ts : List TypeInfo) :
    ∀ view : View,
      (ecm.AddComponentsToView Ts view entity).1.entities = view.entities ∧
      (ecm.AddComponentsToView Ts view entity).1.newEntities = view.newEntities ∧
      (ecm.AddComponentsToView Ts view entity).1.toEraseEntities = view.toEraseEntities := by
  induction Ts with
  | nil => intro view; simp [AddComponentsToView]
  | cons T rest ih =>
    intro view
    cases rest with
    | nil =>
      simp only [AddComponentsToView]
      split <;> simp [View.AddComponent]
    | cons U rest' =>
      simp only [AddComponentsToView]
      split
      · exact ih (view.AddComponent entity (ComponentType T)
          (ecm.EntityComponentIdFromType entity (ComponentType T)))
      · exact ih view

theorem body_lists (ecm : EntityComponentManager) (Ts : List TypeInfo) (view : View)
    (entity : Entity) :
    (FindView.body ecm Ts view entity).entities
      = view.entities ++ [entity].filter (fun e => ecm.EntityMatches e (typesOf Ts)) ∧
    (FindView.body ecm Ts view entity).newEntities
      = view.newEntities ++ [entity].filter
          (fun e => ecm.EntityMatches e (typesOf Ts) && ecm.IsNewEntity e) ∧
    (FindView.body ecm Ts view entity).toEraseEntities
      = view.toEraseEntities ++ [entity].filter
          (fun e => ecm.EntityMatches e (typesOf Ts) && ecm.IsMarkedForErasure e) := by
  unfold FindView.body
  by_cases hm : ecm.EntityMatches entity (typesOf Ts) = true
  · simp only [hm, if_true]
    obtain ⟨h1, h2, h3⟩ := AddComponentsToView_lists ecm entity Ts
      (if ecm.IsMarkedForErasure entity = true then
        (view.AddEntity entity (ecm.IsNewEntity entity)).AddEntityToErased entity
       else view.AddEntity entity (ecm.IsNewEntity entity))
    rw [h1, h2, h3]
    by_cases hn : ecm.IsNewEntity entity = true <;>
      by_cases he : ecm.IsMarkedForErasure entity = true <;>
      simp [hn, he, hm, View.AddEntity, View.AddEntityToErased, List.filter]
  · simp [hm, List.filter]

theorem foldl_body_lists (ecm : EntityComponentManager) (Ts : List TypeInfo)
    (l : List Entity) :
    ∀ view : View,
      (l.foldl (FindView.body ecm Ts) view).entities
        = view.entities ++ l.filter (fun e => ecm.EntityMatches e (typesOf Ts)) ∧
      (l.foldl (FindView.body ecm Ts) view).newEntities
        = view.newEntities ++ l.filter
            (fun e => ecm.EntityMatches e (typesOf Ts) && ecm.IsNewEntity e) ∧
      (l.foldl (FindView.body ecm Ts) view).toEraseEntities
        = view.toEraseEntities ++ l.filter
            (fun e => ecm.EntityMatches e (typesOf Ts) && ecm.IsMarkedForErasure e) := by
  induction l with
  | nil => intro view; simp
  | cons e es ih =>
    intro view
    obtain ⟨h1, h2, h3⟩ := ih (FindView.body ecm Ts view e)
    obtain ⟨b1, b2, b3⟩ := body_lists ecm Ts view e
    simp only [List.foldl_cons, h1, h2, h3, b1, b2, b3, List.append_assoc]
    refine ⟨?_, ?_, ?_⟩ <;> rw [← List.filter_append] <;> rfl

theorem build_entities (ecm : EntityComponentManager) (Ts : List TypeInfo) :
    (FindView.build ecm Ts).entities
      = ecm.Entities.filter (fun e => ecm.EntityMatches e (typesOf Ts)) := by
  simpa [FindView.build] using (foldl_body_lists ecm Ts ecm.Entities {}).1

theorem build_newEntities (ecm : EntityComponentManager) (Ts : List TypeInfo) :
    (FindView.build ecm Ts).newEntities
      = ecm.Entities.filter
          (fun e => ecm.EntityMatches e (typesOf Ts) && ecm.IsNewEntity e) := by
  simpa [FindView.build] using (foldl_body_lists ecm Ts ecm.Entities {}).2.1

theorem build_toEraseEntities (ecm : EntityComponentManager) (Ts : List TypeInfo) :
    (FindView.build ecm Ts).toEraseEntities
      = ecm.Entities.filter
          (fun e => ecm.EntityMatches e (typesOf Ts) && ecm.IsMarkedForErasure e) := by
  simpa [FindView.build] using (foldl_body_lists ecm Ts ecm.Entities {}).2.2

/-! ## The cache -/

theorem FindView_of_none (ecm : EntityComponentManager) (Ts : List TypeInfo)
    (h : ecm.FindViewByTypes (typesOf Ts) = none) :
    ecm.FindView Ts
      = (FindView.build ecm Ts,
          { ecm with views := (typesOf Ts, FindView.build ecm Ts) :: ecm.views }) := by
  simp [FindView, h, AddView]

theorem FindView_of_some (ecm : EntityComponentManager) (Ts : List TypeInfo) (v : View)
    (h : ecm.FindViewByTypes (typesOf Ts) = some v) :
    ecm.FindView Ts = (v, ecm) := by
  simp [FindView, h]

theorem FindView_observers (ecm : EntityComponentManager) (Ts : List TypeInfo) :
    (ecm.FindView Ts).2.Entities = ecm.Entities ∧
    (ecm.FindView Ts).2.EntityMatches = ecm.EntityMatches ∧
    (ecm.FindView Ts).2.IsNewEntity = ecm.IsNewEntity ∧
    (ecm.FindView Ts).2.IsMarkedForErasure = ecm.IsMarkedForErasure ∧
    (ecm.FindView Ts).2.EntityComponentIdFromType = ecm.EntityComponentIdFromType ∧
    (ecm.FindView Ts).2.ComponentImplementation = ecm.ComponentImplementation ∧
    (ecm.FindView Ts).2.ComponentImplementationByKey = ecm.ComponentImplementationByKey := by
  cases h : ecm.FindViewByTypes (typesOf Ts) with
  | none => simp [FindView_of_none ecm Ts h]
  | some v => simp [FindView_of_some ecm Ts v h]

/-! ## Traces of the cached queries -/

theorem traced_run {σ : Type} (f : Callback σ) (cs : Entity → List (Option ComponentData))
    (l : List Entity) (s : σ) :
    rangeFor (fun entity st => f.traced entity (cs entity) st) l (s, [])
      = (rangeFor (fun entity st => f entity (cs entity) st) l s,
          rangeFor.calls (fun entity st => f entity (cs entity) st) l s) := by
  have h := rangeFor_traced (fun entity st => f entity (cs entity) st) l s []
  simpa [Callback.traced] using h

theorem Each_trace_eq {σ : Type} (ecm : EntityComponentManager) (Ts : List TypeInfo)
    (f : Callback σ) (s : σ) :
    Each.trace ecm Ts f s
      = rangeFor.calls (fun entity st =>
          f entity (Ts.map fun T => (ecm.FindView Ts).1.Component T entity (ecm.FindView Ts).2) st)
        (ecm.FindView Ts).1.entities s := by
  simp only [Each.trace, Each, traced_run]

theorem Each_const_trace_eq {σ : Type} (ecm : EntityComponentManager) (Ts : List TypeInfo)
    (f : Callback σ) (s : σ) :
    Each_const.trace ecm Ts f s
      = rangeFor.calls (fun entity st =>
          f entity (Ts.map fun T => (ecm.FindView Ts).1.Component T entity (ecm.FindView Ts).2) st)
        (ecm.FindView Ts).1.entities s := by
  simp only [Each_const.trace, Each_const, traced_run]

theorem EachNew_trace_eq {σ : Type} (ecm : EntityComponentManager) (Ts : List TypeInfo)
    (f : Callback σ) (s : σ) :
    EachNew.trace ecm Ts f s
      = rangeFor.calls (fun entity st =>
          f entity (Ts.map fun T => (ecm.FindView Ts).1.Component T entity (ecm.FindView Ts).2) st)
        (ecm.FindView Ts).1.newEntities s := by
  simp only [EachNew.trace, EachNew, traced_run]

theorem EachNew_const_trace_eq {σ : Type} (ecm : EntityComponentManager) (Ts : List TypeInfo)
    (f : Callback σ) (s : σ) :
    EachNew_const.trace ecm Ts f s
      = rangeFor.calls (fun entity st =>
          f entity (Ts.map fun T => (ecm.FindView Ts).1.Component T entity (ecm.FindView Ts).2) st)
        (ecm.FindView Ts).1.newEntities s := by
  simp only [EachNew_const.trace, EachNew_const, traced_run]

theorem EachErased_trace_eq {σ : Type} (ecm : EntityComponentManager) (Ts : List TypeInfo)
    (f : Callback σ) (s : σ) :
    EachErased.trace ecm Ts f s
      = rangeFor.calls (fun entity st =>
          f entity (Ts.map fun T => (ecm.FindView Ts).1.Component T entity (ecm.FindView Ts).2) st)
        (ecm.FindView Ts).1.toEraseEntities s := by
  simp only [EachErased.trace, EachErased, traced_run]

theorem Each_visited_of_neverStops {σ : Type} (ecm : EntityComponentManager)
    (Ts : List TypeInfo) (f : Callback σ) (hf : f.NeverStops) (s : σ) :
    (Each.trace ecm Ts f s).map Prod.fst = (ecm.FindView Ts).1.entities ∧
    (Each_const.trace ecm Ts f s).map Prod.fst = (ecm.FindView Ts).1.entities := by
  rw [Each_trace_eq, Each_const_trace_eq]
  exact ⟨calls_neverStops _ (fun e st => hf e _ st) _ s,
    calls_neverStops _ (fun e st => hf e _ st) _ s⟩

theorem EachNew_visited_of_neverStops {σ : Type} (ecm : EntityComponentManager)
    (Ts : List TypeInfo) (f : Callback σ) (hf : f.NeverStops) (s : σ) :
    (EachNew.trace ecm Ts f s).map Prod.fst = (ecm.FindView Ts).1.newEntities ∧
    (EachNew_const.trace ecm Ts f s).map Prod.fst = (ecm.FindView Ts).1.newEntities := by
  rw [EachNew_trace_eq, EachNew_const_trace_eq]
  exact ⟨calls_neverStops _ (fun e st => hf e _ st) _ s,
    calls_neverStops _ (fun e st => hf e _ st) _ s⟩

theorem EachErased_visited_of_neverStops {σ : Type} (ecm : EntityComponentManager)
    (Ts : List TypeInfo) (f : Callback σ) (hf : f.NeverStops) (s : σ) :
    (EachErased.trace ecm Ts f s).map Prod.fst = (ecm.FindView Ts).1.toEraseEntities := by
  rw [EachErased_trace_eq]
  exact calls_neverStops _ (fun e st => hf e _ st) _ s

theorem countAll_neverStops : countAll.NeverStops := fun _ _ _ => rfl

/-! ## Claims -/

/-- C1: when no view is cached for the type set, the all list of the view that
`FindView` builds is the live entities that satisfy `EntityMatches`, in the order
of `Entities()`: every entity of the list is live and matches, and every live
entity that matches is in the list. -/
theorem FindView_builds_all_matching (ecm : EntityComponentManager) (Ts : List TypeInfo)
    (h : ecm.FindViewByTypes (typesOf Ts) = none) :
    (ecm.FindView Ts).1.entities
        = ecm.Entities.filter (fun e => ecm.EntityMatches e (typesOf Ts)) ∧
    ∀ e, e ∈ (ecm.FindView Ts).1.entities
        ↔ e ∈ ecm.Entities ∧ ecm.EntityMatches e (typesOf Ts) = true := by
  rw [FindView_of_none ecm Ts h]
  simp [build_entities]

/-- Witness for C1 on `exampleStore` and the types position and velocity: the
view built lists entities 1 and 3. -/
theorem FindView_builds_all_matching_witness :
    exampleStore.FindViewByTypes (typesOf [Position, Velocity]) = none ∧
    (exampleStore.FindView [Position, Velocity]).1.entities = [1, 3] ∧
    ((exampleStore.FindView [Position, Velocity]).1.entities
        = exampleStore.Entities.filter
            (fun e => exampleStore.EntityMatches e (typesOf [Position, Velocity])) ∧
      ∀ e, e ∈ (exampleStore.FindView [Position, Velocity]).1.entities
        ↔ e ∈ exampleStore.Entities ∧
          exampleStore.EntityMatches e (typesOf [Position, Velocity]) = true) :=
  ⟨rfl, by decide, FindView_builds_all_matching exampleStore [Position, Velocity] rfl⟩

/-! ## Reachable stores -/

theorem reachable_views_built {ecm : EntityComponentManager} (h : Reachable ecm) :
    ∀ k v, ecm.FindViewByTypes k = some v →
      ∃ ecm0 Ts0, Reachable ecm0 ∧ ecm0.FindViewByTypes k = none ∧ typesOf Ts0 = k ∧
        v = FindView.build ecm0 Ts0 := by
  induction h with
  | init ecm h0 => intro k v hk; simp [FindViewByTypes, h0] at hk
  | query ecm Ts hr ih =>
    intro k v hk
    cases hc : ecm.FindViewByTypes (typesOf Ts) with
    | some w =>
      rw [FindView_of_some ecm Ts w hc] at hk
      exact ih k v hk
    | none =>
      rw [FindView_of_none ecm Ts hc] at hk
      simp only [FindViewByTypes, List.lookup_cons] at hk
      by_cases hkt : k = typesOf Ts
      · subst hkt
        simp only [beq_self_eq_true, Option.some.injEq] at hk
        exact ⟨ecm, Ts, hr, hc, rfl, hk.symm⟩
      · have hne : (k == typesOf Ts) = false := by simpa using hkt
        rw [hne] at hk
        exact ih k v hk
  | change ecm ecm' hr hv ih =>
    intro k v hk
    exact ih k v (by simpa [FindViewByTypes, hv] using hk)

theorem reachable_FindView_built {ecm : EntityComponentManager} (h : Reachable ecm)
    (Ts : List TypeInfo) :
    ∃ ecm0 Ts0, Reachable ecm0 ∧ ecm0.FindViewByTypes (typesOf Ts) = none ∧
      typesOf Ts0 = typesOf Ts ∧ (ecm.FindView Ts).1 = FindView.build ecm0 Ts0 ∧
      (ecm.FindViewByTypes (typesOf Ts) = none → ecm0 = ecm ∧ Ts0 = Ts) := by
  cases hc : ecm.FindViewByTypes (typesOf Ts) with
  | none =>
    exact ⟨ecm, Ts, h, hc, rfl, by rw [FindView_of_none ecm Ts hc], fun _ => ⟨rfl, rfl⟩⟩
  | some v =>
    obtain ⟨ecm0, Ts0, hr, h0, hk, hv⟩ := reachable_views_built h _ v hc
    exact ⟨ecm0, Ts0, hr, h0, hk, by rw [FindView_of_some ecm Ts v hc]; exact hv,
      fun hn => by simp at hn⟩

theorem staleStore_reachable : Reachable staleStore :=
  Reachable.change _ _ (Reachable.query exampleStore [Position, Velocity]
    (Reachable.init exampleStore rfl)) rfl

theorem calls_mem {σ : Type} (body : Entity → σ → Bool × σ) (l : List Entity) (s : σ)
    (e : Entity) (h : e ∈ (rangeFor.calls body l s).map Prod.fst) : e ∈ l :=
  (calls_visitsUntilStop body l s).1.subset h

/-- C2: in every store reachable from an empty cache and for every list of
component types, the new list of the view is contained in its all list, so every
entity that `EachNew` (either overload, any callback) hands to its callback is
also handed to the callback of `Each` (either overload) when that callback never
requests a stop. -/
theorem EachNew_yields_subset_of_Each {σ τ : Type} (ecm : EntityComponentManager)
    (hr : Reachable ecm) (Ts : List TypeInfo) (f : Callback σ) (g : Callback τ)
    (hg : g.NeverStops) (s : σ) (t : τ) :
    (∀ e ∈ (ecm.FindView Ts).1.newEntities, e ∈ (ecm.FindView Ts).1.entities) ∧
    ∀ e, (e ∈ (EachNew.trace ecm Ts f s).map Prod.fst ∨
          e ∈ (EachNew_const.trace ecm Ts f s).map Prod.fst) →
      e ∈ (Each.trace ecm Ts g t).map Prod.fst ∧
      e ∈ (Each_const.trace ecm Ts g t).map Prod.fst := by
  obtain ⟨ecm0, Ts0, -, -, -, hv, -⟩ := reachable_FindView_built hr Ts
  have hsub : ∀ e ∈ (ecm.FindView Ts).1.newEntities, e ∈ (ecm.FindView Ts).1.entities := by
    intro e he
    rw [hv, build_newEntities] at he
    rw [hv, build_entities]
    simp only [List.mem_filter, Bool.and_eq_true] at he ⊢
    exact ⟨he.1, he.2.1⟩
  refine ⟨hsub, ?_⟩
  intro e he
  obtain ⟨h1, h2⟩ := Each_visited_of_neverStops ecm Ts g hg t
  rw [h1, h2]
  have hnew : e ∈ (ecm.FindView Ts).1.newEntities := by
    rcases he with he | he
    · rw [EachNew_trace_eq] at he; exact calls_mem _ _ _ _ he
    · rw [EachNew_const_trace_eq] at he; exact calls_mem _ _ _ _ he
  exact ⟨hsub e hnew, hsub e hnew⟩

/-- Witness for C2 on `staleStore`, whose cached view for position and velocity
was built before entity 1 lost its velocity. -/
theorem EachNew_yields_subset_of_Each_witness :
    Reachable staleStore ∧ countAll.NeverStops ∧
    (EachNew.trace staleStore [Position, Velocity] stopAtTwo 0).map Prod.fst = [3] ∧
    (Each.trace staleStore [Position, Velocity] countAll 0).map Prod.fst = [1, 3] ∧
    ((∀ e ∈ (staleStore.FindView [Position, Velocity]).1.newEntities,
        e ∈ (staleStore.FindView [Position, Velocity]).1.entities) ∧
      ∀ e, (e ∈ (EachNew.trace staleStore [Position, Velocity] stopAtTwo 0).map Prod.fst ∨
            e ∈ (EachNew_const.trace staleStore [Position, Velocity] stopAtTwo 0).map Prod.fst) →
        e ∈ (Each.trace staleStore [Position, Velocity] countAll 0).map Prod.fst ∧
        e ∈ (Each_const.trace staleStore [Position, Velocity] countAll 0).map Prod.fst) :=
  ⟨staleStore_reachable, countAll_neverStops, by decide, by decide,
    EachNew_yields_subset_of_Each staleStore staleStore_reachable [Position, Velocity]
      stopAtTwo countAll countAll_neverStops 0 0⟩

theorem calls_answers {σ : Type} (body : Entity → σ → Bool × σ) (l : List Entity) :
    ∀ s : σ, ∀ c ∈ rangeFor.calls body l s, ∃ st, (body c.1 st).1 = c.2 := by
  induction l with
  | nil => intro s c hc; simp [rangeFor.calls] at hc
  | cons e es ih =>
    intro s c hc
    rcases hb : body e s with ⟨b, s'⟩
    cases b
    · simp only [rangeFor.calls, hb, List.mem_singleton] at hc
      subst hc
      exact ⟨s, by rw [hb]⟩
    · simp only [rangeFor.calls, hb, List.mem_cons] at hc
      rcases hc with rfl | hc
      · exact ⟨s, by rw [hb]⟩
      · exact ih s' c hc

theorem calls_of_predicate {σ : Type} (body : Entity → σ → Bool × σ) (p : Entity → Bool)
    (hp : ∀ e s, (body e s).1 = p e) (l : List Entity) :
    ∀ s : σ, (rangeFor.calls body l s).map Prod.fst
      = l.takeWhile p ++ ((l.dropWhile p).head?).toList := by
  induction l with
  | nil => intro s; simp [rangeFor.calls]
  | cons e es ih =>
    intro s
    rcases hb : body e s with ⟨b, s'⟩
    have hpe := hp e s
    rw [hb] at hpe
    simp only at hpe
    cases b
    · simp [rangeFor.calls, hb, List.takeWhile, List.dropWhile, ← hpe]
    · simp [rangeFor.calls, hb, List.takeWhile, List.dropWhile, ← hpe, ih]

theorem traced_state {σ : Type} (f : Callback σ) (cs : Entity → List (Option ComponentData))
    (l : List Entity) (s : σ) :
    (rangeFor (fun entity st => f.traced entity (cs entity) st) l (s, [])).1
      = rangeFor (fun entity st => f entity (cs entity) st) l s := by
  rw [traced_run]

/-- C4: for a live entity that is marked for erasure and matches the type set,
the view `FindView` builds for that type set (none being cached) has the entity
in its erase list and in its all list; `EachErased` hands it to its callback and
so does `Each` (either overload), the callbacks never requesting a stop. -/
theorem marked_entity_in_erase_and_all_lists {σ τ : Type} (ecm : EntityComponentManager)
    (Ts : List TypeInfo) (E : Entity) (hlive : E ∈ ecm.Entities)
    (hmark : ecm.IsMarkedForErasure E = true)
    (hmatch : ecm.EntityMatches E (typesOf Ts) = true)
    (hfresh : ecm.FindViewByTypes (typesOf Ts) = none)
    (f : Callback σ) (hf : f.NeverStops) (g : Callback τ) (hg : g.NeverStops)
    (s : σ) (t : τ) :
    E ∈ (ecm.FindView Ts).1.toEraseEntities ∧
    E ∈ (ecm.FindView Ts).1.entities ∧
    E ∈ (EachErased.trace ecm Ts f s).map Prod.fst ∧
    E ∈ (Each.trace ecm Ts g t).map Prod.fst ∧
    E ∈ (Each_const.trace ecm Ts g t).map Prod.fst := by
  have he : E ∈ (ecm.FindView Ts).1.toEraseEntities := by
    rw [FindView_of_none ecm Ts hfresh]
    simp [build_toEraseEntities, hlive, hmark, hmatch]
  have ha : E ∈ (ecm.FindView Ts).1.entities := by
    rw [FindView_of_none ecm Ts hfresh]
    simp [build_entities, hlive, hmatch]
  obtain ⟨h1, h2⟩ := Each_visited_of_neverStops ecm Ts g hg t
  rw [EachErased_visited_of_neverStops ecm Ts f hf s, h1, h2]
  exact ⟨he, ha, he, ha, ha⟩

/-- Witness for C4 on `exampleStore`: entity 1 is live, marked for erasure and
has a position and a velocity. -/
theorem marked_entity_in_erase_and_all_lists_witness :
    (1 ∈ exampleStore.Entities ∧ exampleStore.IsMarkedForErasure 1 = true ∧
      exampleStore.EntityMatches 1 (typesOf [Position, Velocity]) = true ∧
      exampleStore.FindViewByTypes (typesOf [Position, Velocity]) = none) ∧
    (1 ∈ (exampleStore.FindView [Position, Velocity]).1.toEraseEntities ∧
      1 ∈ (exampleStore.FindView [Position, Velocity]).1.entities ∧
      1 ∈ (EachErased.trace exampleStore [Position, Velocity] countAll 0).map Prod.fst ∧
      1 ∈ (Each.trace exampleStore [Position, Velocity] countAll 0).map Prod.fst ∧
      1 ∈ (Each_const.trace exampleStore [Position, Velocity] countAll 0).map Prod.fst) :=
  ⟨by decide,
    marked_entity_in_erase_and_all_lists exampleStore [Position, Velocity] 1
      (by decide) (by decide) (by decide) rfl
      countAll countAll_neverStops countAll countAll_neverStops 0 0⟩

/-- C5: when no view is cached for the type set, the new list of the view that
`FindView` builds is the live entities that match the type set and for which
`IsNewEntity` holds, in the order of `Entities()`; `EachNew` (either overload)
with a callback that never requests a stop visits exactly those entities. -/
theorem FindView_builds_new_list {σ : Type} (ecm : EntityComponentManager)
    (Ts : List TypeInfo) (h : ecm.FindViewByTypes (typesOf Ts) = none)
    (f : Callback σ) (hf : f.NeverStops) (s : σ) :
    (ecm.FindView Ts).1.newEntities
        = ecm.Entities.filter
            (fun e => ecm.EntityMatches e (typesOf Ts) && ecm.IsNewEntity e) ∧
    (∀ e, e ∈ (ecm.FindView Ts).1.newEntities
        ↔ e ∈ ecm.Entities ∧ ecm.EntityMatches e (typesOf Ts) = true ∧
          ecm.IsNewEntity e = true) ∧
    (EachNew.trace ecm Ts f s).map Prod.fst = (ecm.FindView Ts).1.newEntities ∧
    (EachNew_const.trace ecm Ts f s).map Prod.fst = (ecm.FindView Ts).1.newEntities := by
  refine ⟨?_, ?_, EachNew_visited_of_neverStops ecm Ts f hf s⟩
  · rw [FindView_of_none ecm Ts h]
    exact build_newEntities ecm Ts
  · rw [FindView_of_none ecm Ts h]
    simp [build_newEntities]

/-- Witness for C5 on `exampleStore`: of the entities with position and velocity
only entity 3 is new. -/
theorem FindView_builds_new_list_witness :
    (exampleStore.FindViewByTypes (typesOf [Position, Velocity]) = none ∧
      countAll.NeverStops) ∧
    (EachNew.trace exampleStore [Position, Velocity] countAll 0).map Prod.fst = [3] ∧
    ((exampleStore.FindView [Position, Velocity]).1.newEntities
        = exampleStore.Entities.filter
            (fun e => exampleStore.EntityMatches e (typesOf [Position, Velocity]) &&
              exampleStore.IsNewEntity e) ∧
      (∀ e, e ∈ (exampleStore.FindView [Position, Velocity]).1.newEntities
        ↔ e ∈ exampleStore.Entities ∧
          exampleStore.EntityMatches e (typesOf [Position, Velocity]) = true ∧
          exampleStore.IsNewEntity e = true) ∧
      (EachNew.trace exampleStore [Position, Velocity] countAll 0).map Prod.fst
        = (exampleStore.FindView [Position, Velocity]).1.newEntities ∧
      (EachNew_const.trace exampleStore [Position, Velocity] countAll 0).map Prod.fst
        = (exampleStore.FindView [Position, Velocity]).1.newEntities) :=
  ⟨⟨rfl, countAll_neverStops⟩, by decide,
    FindView_builds_new_list exampleStore [Position, Velocity] rfl countAll
      countAll_neverStops 0⟩

/-- C6: `Each` (const and non-const overload) invokes its callback on the
entities of the all list of the view in list order, no entity more often than it
occurs in the list, and stops after the first answer `false`: the entities
visited are an initial segment of the list, every answer but the last is `true`,
and the segment is the whole list unless the last answer is `false`. Every
answer logged is an answer of the callback on that entity; a callback that never
answers `false` visits the whole list; and when the answer depends on the entity
alone the entities visited are those before the first `false`, followed by that
entity. Logging the invocations does not change the state the callback ends
in. -/
theorem Each_visits_until_stop {σ : Type} (ecm : EntityComponentManager)
    (Ts : List TypeInfo) (f : Callback σ) (s : σ) :
    (VisitsUntilStop (ecm.FindView Ts).1.entities (Each.trace ecm Ts f s) ∧
      VisitsUntilStop (ecm.FindView Ts).1.entities (Each_const.trace ecm Ts f s)) ∧
    (∀ e, ((Each.trace ecm Ts f s).map Prod.fst).count e
          ≤ (ecm.FindView Ts).1.entities.count e ∧
        ((Each_const.trace ecm Ts f s).map Prod.fst).count e
          ≤ (ecm.FindView Ts).1.entities.count e) ∧
    (∀ c, (c ∈ Each.trace ecm Ts f s ∨ c ∈ Each_const.trace ecm Ts f s) →
        ∃ st, (f c.1 (Ts.map fun T =>
          (ecm.FindView Ts).1.Component T c.1 (ecm.FindView Ts).2) st).1 = c.2) ∧
    (f.NeverStops →
        (Each.trace ecm Ts f s).map Prod.fst = (ecm.FindView Ts).1.entities ∧
        (Each_const.trace ecm Ts f s).map Prod.fst = (ecm.FindView Ts).1.entities) ∧
    (∀ p : Entity → Bool, (∀ e cs st, (f e cs st).1 = p e) →
        (Each.trace ecm Ts f s).map Prod.fst
          = (ecm.FindView Ts).1.entities.takeWhile p
            ++ (((ecm.FindView Ts).1.entities.dropWhile p).head?).toList ∧
        (Each_const.trace ecm Ts f s).map Prod.fst
          = (ecm.FindView Ts).1.entities.takeWhile p
            ++ (((ecm.FindView Ts).1.entities.dropWhile p).head?).toList) ∧
    ((ecm.Each Ts f.traced (s, [])).1.1 = (ecm.Each Ts f s).1 ∧
      (ecm.Each_const Ts f.traced (s, [])).1.1 = (ecm.Each_const Ts f s).1) := by
  refine ⟨?_, ?_, ?_, ?_, ?_, ?_⟩
  · rw [Each_trace_eq, Each_const_trace_eq]
    exact ⟨calls_visitsUntilStop _ _ s, calls_visitsUntilStop _ _ s⟩
  · intro e
    rw [Each_trace_eq, Each_const_trace_eq]
    exact ⟨(calls_visitsUntilStop _ _ s).1.sublist.count_le e,
      (calls_visitsUntilStop _ _ s).1.sublist.count_le e⟩
  · intro c hc
    rw [Each_trace_eq, Each_const_trace_eq, or_self] at hc
    exact calls_answers _ _ s c hc
  · exact fun hf => Each_visited_of_neverStops ecm Ts f hf s
  · intro p hp
    rw [Each_trace_eq, Each_const_trace_eq]
    exact ⟨calls_of_predicate _ p (fun e st => hp e _ st) _ s,
      calls_of_predicate _ p (fun e st => hp e _ st) _ s⟩
  · exact ⟨traced_state f _ _ s, traced_state f _ _ s⟩

/-- Witness for C6 on `exampleStore` and the type position: the callback that
answers `false` on entity 2 is invoked on entities 1 and 2 and not on entity 3. -/
theorem Each_visits_until_stop_witness :
    (exampleStore.FindView [Position]).1.entities = [1, 2, 3] ∧
    Each.trace exampleStore [Position] stopAtTwo 0 = [(1, true), (2, false)] ∧
    (VisitsUntilStop (exampleStore.FindView [Position]).1.entities
        (Each.trace exampleStore [Position] stopAtTwo 0) ∧
      VisitsUntilStop (exampleStore.FindView [Position]).1.entities
        (Each_const.trace exampleStore [Position] stopAtTwo 0)) :=
  ⟨by decide, by decide, (Each_visits_until_stop exampleStore [Position] stopAtTwo 0).1⟩

/-! ## Lookup by component values -/

theorem compare_of_nonnull (ecm : EntityComponentManager) (entity : Entity)
    (desired : List (TypeInfo × ComponentData)) :
    (∀ p ∈ desired, ecm.Component p.1 entity ≠ none) →
    ∀ different : Bool,
      EntityByComponents.compare ecm entity desired different
        = some (different || !ComponentsEqual ecm desired entity) := by
  induction desired with
  | nil => intro _ d; simp [EntityByComponents.compare, ComponentsEqual]
  | cons p rest ih =>
    intro hnn d
    obtain ⟨T, want⟩ := p
    have hT : ecm.Component T entity ≠ none := hnn (T, want) (List.mem_cons_self _ _)
    obtain ⟨c, hc⟩ := Option.ne_none_iff_exists'.mp hT
    have ih' := ih (fun q hq => hnn q (List.mem_cons_of_mem _ hq))
    have ihc : ComponentsEqual ecm ((T, want) :: rest) entity
        = (decide (c = want) && ComponentsEqual ecm rest entity) := by
      simp [ComponentsEqual, hc, beq_eq_decide]
    simp only [EntityByComponents.compare, hc, ih', ihc]
    by_cases hcw : c = want
    · simp [hcw]
    · simp [hcw]

theorem compare_congr (ecm ecm' : EntityComponentManager)
    (h : ecm'.ComponentImplementation = ecm.ComponentImplementation) (entity : Entity)
    (desired : List (TypeInfo × ComponentData)) :
    ∀ different : Bool, EntityByComponents.compare ecm' entity desired different
      = EntityByComponents.compare ecm entity desired different := by
  induction desired with
  | nil => intro d; rfl
  | cons p rest ih =>
    intro d
    obtain ⟨T, want⟩ := p
    simp only [EntityByComponents.compare, EntityComponentManager.Component, h, ih]

theorem scan_congr (ecm ecm' : EntityComponentManager)
    (h : ecm'.ComponentImplementation = ecm.ComponentImplementation) (kNullEntity : Entity)
    (desired : List (TypeInfo × ComponentData)) (l : List Entity) :
    EntityByComponents.scan ecm' kNullEntity desired l
      = EntityByComponents.scan ecm kNullEntity desired l := by
  induction l with
  | nil => rfl
  | cons e es ih => simp only [EntityByComponents.scan, compare_congr ecm ecm' h, ih]

theorem nonnull_of_componentsEqual (ecm : EntityComponentManager)
    (desired : List (TypeInfo × ComponentData)) (entity : Entity)
    (h : ComponentsEqual ecm desired entity = true) :
    ∀ p ∈ desired, ecm.Component p.1 entity ≠ none := by
  intro p hp hnone
  have hall := List.all_eq_true.mp h p hp
  rw [hnone] at hall
  simp at hall

theorem scan_of_nonnull (ecm : EntityComponentManager) (kNullEntity : Entity)
    (desired : List (TypeInfo × ComponentData)) (l : List Entity) :
    (∀ e ∈ l.takeWhile (fun e => !ComponentsEqual ecm desired e),
      ∀ p ∈ desired, ecm.Component p.1 e ≠ none) →
    EntityByComponents.scan ecm kNullEntity desired l
      = some ((l.find? (ComponentsEqual ecm desired)).getD kNullEntity) := by
  induction l with
  | nil => intro _; rfl
  | cons e es ih =>
    intro hnn
    by_cases hE : ComponentsEqual ecm desired e = true
    · have he := compare_of_nonnull ecm e desired
        (nonnull_of_componentsEqual ecm desired e hE) false
      simp [EntityByComponents.scan, he, hE, List.find?]
    · simp only [Bool.not_eq_true] at hE
      have hmem : ∀ x ∈ es.takeWhile (fun e => !ComponentsEqual ecm desired e),
          x ∈ (e :: es).takeWhile (fun e => !ComponentsEqual ecm desired e) := by
        intro x hx
        simp only [List.takeWhile, hE, Bool.not_false]
        exact List.mem_cons_of_mem _ hx
      have hhead : e ∈ (e :: es).takeWhile (fun e => !ComponentsEqual ecm desired e) := by
        simp [List.takeWhile, hE]
      have he := compare_of_nonnull ecm e desired (hnn e hhead) false
      have ih' := ih (fun x hx => hnn x (hmem x hx))
      simp [EntityByComponents.scan, he, ih', hE, List.find?]

theorem EntityByComponents_eq (ecm : EntityComponentManager) (kNullEntity : Entity)
    (desired : List (TypeInfo × ComponentData)) :
    (ecm.EntityByComponents kNullEntity desired).map Prod.fst
      = EntityByComponents.scan ecm kNullEntity desired
          (ecm.FindView (desired.map Prod.fst)).1.entities := by
  simp only [EntityByComponents, Option.map_map]
  rw [scan_congr ecm _ (FindView_observers ecm _).2.2.2.2.2.1]
  cases EntityByComponents.scan ecm kNullEntity desired
    (ecm.FindView (desired.map Prod.fst)).1.entities <;> rfl

/-! ## The uncached scan -/

theorem EachNoCache_trace_eq {σ : Type} (ecm : EntityComponentManager) (Ts : List TypeInfo)
    (f : Callback σ) (s : σ) :
    EachNoCache.trace ecm Ts f s
      = rangeFor.calls (fun entity st => f entity (Ts.map fun T => ecm.Component T entity) st)
          (ecm.Entities.filter fun e => ecm.EntityMatches e (typesOf Ts)) s := by
  have h := rangeFor_skip (fun e => ecm.EntityMatches e (typesOf Ts))
    (fun entity st => f.traced entity (Ts.map fun T => ecm.Component T entity) st)
    ecm.Entities (s, [])
  simp only [EachNoCache.trace, EachNoCache]
  rw [h, traced_run]

theorem EachNoCache_const_trace_eq {σ : Type} (ecm : EntityComponentManager)
    (Ts : List TypeInfo) (f : Callback σ) (s : σ) :
    EachNoCache_const.trace ecm Ts f s
      = rangeFor.calls (fun entity st => f entity (Ts.map fun T => ecm.Component T entity) st)
          (ecm.Entities.filter fun e => ecm.EntityMatches e (typesOf Ts)) s := by
  have h := rangeFor_skip (fun e => ecm.EntityMatches e (typesOf Ts))
    (fun entity st => f.traced entity (Ts.map fun T => ecm.Component T entity) st)
    ecm.Entities (s, [])
  simp only [EachNoCache_const.trace, EachNoCache_const]
  rw [h, traced_run]

theorem EachNoCache_state_eq {σ : Type} (ecm : EntityComponentManager) (Ts : List TypeInfo)
    (f : Callback σ) (s : σ) :
    (ecm.EachNoCache Ts f s).1
        = rangeFor (fun entity st => f entity (Ts.map fun T => ecm.Component T entity) st)
            (ecm.Entities.filter fun e => ecm.EntityMatches e (typesOf Ts)) s ∧
    (ecm.EachNoCache_const Ts f s).1
        = rangeFor (fun entity st => f entity (Ts.map fun T => ecm.Component T entity) st)
            (ecm.Entities.filter fun e => ecm.EntityMatches e (typesOf Ts)) s := by
  have h := rangeFor_skip (fun e => ecm.EntityMatches e (typesOf Ts))
    (fun entity st => f entity (Ts.map fun T => ecm.Component T entity) st) ecm.Entities s
  exact ⟨h, h⟩

/-- C8: `EachNoCache` (either overload) leaves the store, and so the view cache,
as it found it: no view is added, also when none is cached for the type set. Its
run does not read the cache: in any store with the same `Entities()`,
`EntityMatches` and component pointers, whatever its cache, the callback is
invoked on the same entities with the same answers and ends in the same state.
The entities visited are an initial segment of the live entities that satisfy
`EntityMatches`, ended only by an answer `false`, and all of them when the
callback never requests a stop. -/
theorem EachNoCache_ignores_view_cache {σ : Type} (ecm : EntityComponentManager)
    (Ts : List TypeInfo) (f : Callback σ) (s : σ) :
    ((ecm.EachNoCache Ts f s).2 = ecm ∧ (ecm.EachNoCache_const Ts f s).2 = ecm) ∧
    ((ecm.EachNoCache Ts f s).2.views = ecm.views ∧
      (ecm.EachNoCache_const Ts f s).2.views = ecm.views) ∧
    ((ecm.EachNoCache Ts f s).2.FindViewByTypes (typesOf Ts)
        = ecm.FindViewByTypes (typesOf Ts) ∧
      (ecm.EachNoCache_const Ts f s).2.FindViewByTypes (typesOf Ts)
        = ecm.FindViewByTypes (typesOf Ts)) ∧
    (∀ ecm' : EntityComponentManager, ecm'.Entities = ecm.Entities →
        ecm'.EntityMatches = ecm.EntityMatches →
        ecm'.ComponentImplementation = ecm.ComponentImplementation →
        EachNoCache.trace ecm' Ts f s = EachNoCache.trace ecm Ts f s ∧
        EachNoCache_const.trace ecm' Ts f s = EachNoCache_const.trace ecm Ts f s ∧
        (ecm'.EachNoCache Ts f s).1 = (ecm.EachNoCache Ts f s).1 ∧
        (ecm'.EachNoCache_const Ts f s).1 = (ecm.EachNoCache_const Ts f s).1) ∧
    (VisitsUntilStop (ecm.Entities.filter fun e => ecm.EntityMatches e (typesOf Ts))
        (EachNoCache.trace ecm Ts f s) ∧
      VisitsUntilStop (ecm.Entities.filter fun e => ecm.EntityMatches e (typesOf Ts))
        (EachNoCache_const.trace ecm Ts f s)) ∧
    (f.NeverStops →
      (EachNoCache.trace ecm Ts f s).map Prod.fst
          = ecm.Entities.filter (fun e => ecm.EntityMatches e (typesOf Ts)) ∧
      (EachNoCache_const.trace ecm Ts f s).map Prod.fst
          = ecm.Entities.filter (fun e => ecm.EntityMatches e (typesOf Ts))) := by
  refine ⟨⟨rfl, rfl⟩, ⟨rfl, rfl⟩, ⟨rfl, rfl⟩, ?_, ?_, ?_⟩
  · intro ecm' hE hM hC
    have e1 := EachNoCache_state_eq ecm' Ts f s
    have e2 := EachNoCache_state_eq ecm Ts f s
    rw [EachNoCache_trace_eq, EachNoCache_trace_eq, EachNoCache_const_trace_eq,
      EachNoCache_const_trace_eq, e1.1, e1.2, e2.1, e2.2]
    simp only [EntityComponentManager.Component, hE, hM, hC, and_self]
  · rw [EachNoCache_trace_eq, EachNoCache_const_trace_eq]
    exact ⟨calls_visitsUntilStop _ _ s, calls_visitsUntilStop _ _ s⟩
  · intro hf
    rw [EachNoCache_trace_eq, EachNoCache_const_trace_eq]
    exact ⟨calls_neverStops _ (fun e st => hf e _ st) _ s,
      calls_neverStops _ (fun e st => hf e _ st) _ s⟩

/-- Witness for C8: on `exampleStore`, whose cache is empty, the scan for
position and velocity visits entities 1 and 3 and caches nothing; on
`staleStore`, whose cached view lists entities 1 and 3, the scan visits
entity 3 only, the one that matches now. -/
theorem EachNoCache_ignores_view_cache_witness :
    (EachNoCache.trace exampleStore [Position, Velocity] countAll 0).map Prod.fst = [1, 3] ∧
    (exampleStore.EachNoCache [Position, Velocity] countAll 0).2.views = [] ∧
    (EachNoCache.trace staleStore [Position, Velocity] countAll 0).map Prod.fst = [3] ∧
    ((staleStore.EachNoCache [Position, Velocity] countAll 0).2 = staleStore ∧
      (staleStore.EachNoCache_const [Position, Velocity] countAll 0).2 = staleStore) :=
  ⟨by decide, by decide, by decide,
    (EachNoCache_ignores_view_cache staleStore [Position, Velocity] countAll 0).1⟩

/-! ## Keys and memoisation -/

theorem typesOf_perm {Ts Ts' : List TypeInfo} (h : Ts.Perm Ts') : typesOf Ts = typesOf Ts' :=
  List.toFinset_eq_of_perm _ _ (h.map ComponentType)

theorem FindView_cached_after (ecm : EntityComponentManager) (Ts : List TypeInfo) :
    (ecm.FindView Ts).2.FindViewByTypes (typesOf Ts) = some (ecm.FindView Ts).1 := by
  cases h : ecm.FindViewByTypes (typesOf Ts) with
  | none => rw [FindView_of_none ecm Ts h]; simp [FindViewByTypes]
  | some v => rw [FindView_of_some ecm Ts v h]; exact h

theorem FindView_entities_of_key (ecm : EntityComponentManager) (Ts Ts' : List TypeInfo)
    (h : typesOf Ts = typesOf Ts') :
    (ecm.FindView Ts).1.entities = (ecm.FindView Ts').1.entities := by
  cases hc : ecm.FindViewByTypes (typesOf Ts) with
  | none =>
    have hc' : ecm.FindViewByTypes (typesOf Ts') = none := h ▸ hc
    rw [FindView_of_none ecm Ts hc, FindView_of_none ecm Ts' hc']
    simp only [build_entities, h]
  | some v =>
    have hc' : ecm.FindViewByTypes (typesOf Ts') = some v := h ▸ hc
    rw [FindView_of_some ecm Ts v hc, FindView_of_some ecm Ts' v hc']

/-- C9: the cache key is the set of the component type ids: two lists of
component types that are permutations of each other give the same key. A view
that `FindView` built or found for one list is the view it returns for the other
list, with the cache left as it is, and `Each` for either list, with callbacks
that never request a stop, visits the same entities, in the same store and when
one query follows the other. -/
theorem view_key_ignores_order {σ τ : Type} (ecm : EntityComponentManager)
    (Ts Ts' : List TypeInfo) (h : Ts.Perm Ts') (f : Callback σ) (hf : f.NeverStops)
    (g : Callback τ) (hg : g.NeverStops) (s : σ) (t : τ) :
    typesOf Ts = typesOf Ts' ∧
    ((ecm.FindView Ts).2.FindView Ts').1 = (ecm.FindView Ts).1 ∧
    ((ecm.FindView Ts).2.FindView Ts').2 = (ecm.FindView Ts).2 ∧
    (Each.trace ecm Ts f s).map Prod.fst = (Each.trace ecm Ts' g t).map Prod.fst ∧
    (Each.trace (ecm.Each Ts f s).2 Ts' g t).map Prod.fst
      = (Each.trace ecm Ts f s).map Prod.fst := by
  have hk := typesOf_perm h
  have hc : (ecm.FindView Ts).2.FindViewByTypes (typesOf Ts') = some (ecm.FindView Ts).1 :=
    hk ▸ FindView_cached_after ecm Ts
  have hfv := FindView_of_some _ Ts' _ hc
  refine ⟨hk, by rw [hfv], by rw [hfv], ?_, ?_⟩
  · rw [(Each_visited_of_neverStops ecm Ts f hf s).1,
      (Each_visited_of_neverStops ecm Ts' g hg t).1]
    exact FindView_entities_of_key ecm Ts Ts' hk
  · have hE : (ecm.Each Ts f s).2 = (ecm.FindView Ts).2 := rfl
    rw [(Each_visited_of_neverStops _ Ts' g hg t).1,
      (Each_visited_of_neverStops ecm Ts f hf s).1, hE, hfv]

/-- Witness for C9 on `exampleStore` with the lists position, velocity and
velocity, position. -/
theorem view_key_ignores_order_witness :
    ([Position, Velocity].Perm [Velocity, Position] ∧ countAll.NeverStops) ∧
    (Each.trace exampleStore [Velocity, Position] countAll 0).map Prod.fst = [1, 3] ∧
    (typesOf [Position, Velocity] = typesOf [Velocity, Position] ∧
      ((exampleStore.FindView [Position, Velocity]).2.FindView [Velocity, Position]).1
        = (exampleStore.FindView [Position, Velocity]).1 ∧
      ((exampleStore.FindView [Position, Velocity]).2.FindView [Velocity, Position]).2
        = (exampleStore.FindView [Position, Velocity]).2 ∧
      (Each.trace exampleStore [Position, Velocity] countAll 0).map Prod.fst
        = (Each.trace exampleStore [Velocity, Position] countAll 0).map Prod.fst ∧
      (Each.trace (exampleStore.Each [Position, Velocity] countAll 0).2
          [Velocity, Position] countAll 0).map Prod.fst
        = (Each.trace exampleStore [Position, Velocity] countAll 0).map Prod.fst) :=
  ⟨⟨List.Perm.swap _ _ _, countAll_neverStops⟩, by decide,
    view_key_ignores_order exampleStore [Position, Velocity] [Velocity, Position]
      (List.Perm.swap _ _ _) countAll countAll_neverStops countAll countAll_neverStops 0 0⟩

/-- C10: a query does not re-synchronise a cached view. When a view is cached for
the type set, `FindView` returns that stored view and leaves the store, and so
the cache, unchanged, in every store that holds this cache, whatever
`Entities()`, `EntityMatches`, `IsNewEntity` and `IsMarkedForErasure` answer
there. When none is cached, the view `FindView` builds is stored under the type
set, the views under every other key are the ones stored before, the answers of
the entity table are untouched, and a second `FindView` for the type set returns
the same view and leaves the store as the first left it. -/
theorem FindView_memoises (ecm : EntityComponentManager) (Ts : List TypeInfo) :
    (∀ v, ecm.FindViewByTypes (typesOf Ts) = some v →
      ∀ ecm' : EntityComponentManager, ecm'.views = ecm.views →
        (ecm'.FindView Ts).1 = v ∧ (ecm'.FindView Ts).2 = ecm') ∧
    (ecm.FindViewByTypes (typesOf Ts) = none →
      (ecm.FindView Ts).2.FindViewByTypes (typesOf Ts) = some (ecm.FindView Ts).1 ∧
      (ecm.FindView Ts).2.views = (typesOf Ts, (ecm.FindView Ts).1) :: ecm.views ∧
      (∀ k, k ≠ typesOf Ts →
        (ecm.FindView Ts).2.FindViewByTypes k = ecm.FindViewByTypes k) ∧
      ((ecm.FindView Ts).2.FindView Ts).1 = (ecm.FindView Ts).1 ∧
      ((ecm.FindView Ts).2.FindView Ts).2 = (ecm.FindView Ts).2) := by
  constructor
  · intro v hv ecm' hviews
    have hv' : ecm'.FindViewByTypes (typesOf Ts) = some v := by
      simpa [FindViewByTypes, hviews] using hv
    rw [FindView_of_some ecm' Ts v hv']
    exact ⟨rfl, rfl⟩
  · intro hnone
    have hfv := FindView_of_some _ Ts _ (FindView_cached_after ecm Ts)
    refine ⟨FindView_cached_after ecm Ts, ?_, ?_, by rw [hfv], by rw [hfv]⟩
    · rw [FindView_of_none ecm Ts hnone]
    · intro k hk
      rw [FindView_of_none ecm Ts hnone]
      have hne : (k == typesOf Ts) = false := by simpa using hk
      simp [FindViewByTypes, List.lookup_cons, hne]

/-- Witness for C10 on `staleStore`: the cached view for position and velocity
lists entities 1 and 3 although a view built now would list entity 3 only, and
`FindView` returns the cached one. -/
theorem FindView_memoises_witness :
    (staleStore.FindView [Position, Velocity]).1.entities = [1, 3] ∧
    (FindView.build staleStore [Position, Velocity]).entities = [3] ∧
    (∀ v, staleStore.FindViewByTypes (typesOf [Position, Velocity]) = some v →
      ∀ ecm' : EntityComponentManager, ecm'.views = staleStore.views →
        (ecm'.FindView [Position, Velocity]).1 = v ∧
        (ecm'.FindView [Position, Velocity]).2 = ecm') :=
  ⟨by decide, by decide, (FindView_memoises staleStore [Position, Velocity]).1⟩

/-! ## Component entries of a view -/

/-- C14: for every view, entity and list of component types,
`AddComponentsToView` (the single-type overload for a list of one type, the
recursive overload for a longer list) goes through the types in list order. It
appends to the view one `(entity, type id, component id)` entry for each type
whose `EntityComponentIdFromType` is non-negative and no other entry; each type
whose component id is negative is reported through `ignerr`, adds no entry, and
the types after it are still processed. The entity lists of the view are not
touched. -/
theorem AddComponentsToView_adds_bound_types (ecm : EntityComponentManager)
    (entity : Entity) (Ts : List TypeInfo) :
    ∀ view : View,
      (ecm.AddComponentsToView Ts view entity).1.components
        = view.components ++
          (Ts.filter fun T => decide (0 ≤ ecm.EntityComponentIdFromType entity (ComponentType T))).map
            (fun T => ((entity, ComponentType T),
              ecm.EntityComponentIdFromType entity (ComponentType T))) ∧
      (ecm.AddComponentsToView Ts view entity).2
        = (Ts.filter fun T => decide (ecm.EntityComponentIdFromType entity (ComponentType T) < 0)).map
            (fun T => (entity, ComponentType T)) ∧
      (ecm.AddComponentsToView Ts view entity).1.entities = view.entities ∧
      (ecm.AddComponentsToView Ts view entity).1.newEntities = view.newEntities ∧
      (ecm.AddComponentsToView Ts view entity).1.toEraseEntities = view.toEraseEntities := by
  induction Ts with
  | nil => intro view; simp [AddComponentsToView]
  | cons T rest ih =>
    intro view
    refine ⟨?_, ?_, AddComponentsToView_lists ecm entity (T :: rest) view⟩
    · cases rest with
      | nil =>
        by_cases hc : 0 ≤ ecm.EntityComponentIdFromType entity (ComponentType T)
        · simp [AddComponentsToView, hc, View.AddComponent, List.filter]
        · simp [AddComponentsToView, hc, List.filter]
      | cons U rest' =>
        by_cases hc : 0 ≤ ecm.EntityComponentIdFromType entity (ComponentType T)
        · have h := (ih (view.AddComponent entity (ComponentType T)
            (ecm.EntityComponentIdFromType entity (ComponentType T)))).1
          simp only [AddComponentsToView, ge_iff_le, hc, if_true]
          rw [h]
          simp [View.AddComponent, List.filter_cons, hc]
        · have h := (ih view).1
          simp only [AddComponentsToView, ge_iff_le, hc, if_false]
          rw [h]
          simp [List.filter_cons, hc]
    · cases rest with
      | nil =>
        by_cases hc : 0 ≤ ecm.EntityComponentIdFromType entity (ComponentType T)
        · simp [AddComponentsToView, hc, List.filter, not_lt.mpr hc]
        · simp [AddComponentsToView, hc, List.filter, not_le.mp hc]
      | cons U rest' =>
        by_cases hc : 0 ≤ ecm.EntityComponentIdFromType entity (ComponentType T)
        · have h := (ih (view.AddComponent entity (ComponentType T)
            (ecm.EntityComponentIdFromType entity (ComponentType T)))).2.1
          simp only [AddComponentsToView, ge_iff_le, hc, if_true]
          rw [h]
          simp [List.filter_cons, hc, not_lt.mpr hc]
        · have h := (ih view).2.1
          simp only [AddComponentsToView, ge_iff_le, hc, if_false]
          rw [h]
          simp [List.filter_cons, hc, not_le.mp hc]

/-- Witness for C14 on `exampleStore`: entity 2 has a position and no velocity.
For the list velocity, position the velocity is reported and the position, which
comes after it, is still added. -/
theorem AddComponentsToView_adds_bound_types_witness :
    exampleStore.AddComponentsToView [Velocity, Position] {} 2
      = ({ components := [((2, 10), 2)] }, [(2, 20)]) ∧
    exampleStore.AddComponentsToView [Velocity] {} 2 = ({}, [(2, 20)]) ∧
    (exampleStore.AddComponentsToView [Velocity, Position] {} 2).1.components
      = ({} : View).components ++
        ([Velocity, Position].filter fun T =>
            decide (0 ≤ exampleStore.EntityComponentIdFromType 2 (ComponentType T))).map
          (fun T => ((2, ComponentType T),
            exampleStore.EntityComponentIdFromType 2 (ComponentType T))) :=
  ⟨by decide, by decide,
    (AddComponentsToView_adds_bound_types exampleStore 2 [Velocity, Position] {}).1⟩

/-! ## Cached and uncached scans -/

/-- C15: when no view is cached for the type list, `Each` and `EachNoCache`
(either overload of each), given callbacks that never request a stop, visit the
same entities in the same order: the live entities that satisfy `EntityMatches`
for the type set. -/
theorem Each_agrees_with_EachNoCache {σ τ : Type} (ecm : EntityComponentManager)
    (Ts : List TypeInfo) (h : ecm.FindViewByTypes (typesOf Ts) = none)
    (f : Callback σ) (hf : f.NeverStops) (g : Callback τ) (hg : g.NeverStops)
    (s : σ) (t : τ) :
    (Each.trace ecm Ts f s).map Prod.fst = (EachNoCache.trace ecm Ts g t).map Prod.fst ∧
    (Each_const.trace ecm Ts f s).map Prod.fst
      = (EachNoCache_const.trace ecm Ts g t).map Prod.fst ∧
    (Each.trace ecm Ts f s).map Prod.fst = (Each_const.trace ecm Ts f s).map Prod.fst ∧
    (Each.trace ecm Ts f s).map Prod.fst
      = ecm.Entities.filter (fun e => ecm.EntityMatches e (typesOf Ts)) ∧
    ∀ e, e ∈ (Each.trace ecm Ts f s).map Prod.fst
      ↔ e ∈ ecm.Entities ∧ ecm.EntityMatches e (typesOf Ts) = true := by
  obtain ⟨h1, h2⟩ := Each_visited_of_neverStops ecm Ts f hf s
  have hv : (ecm.FindView Ts).1.entities
      = ecm.Entities.filter (fun e => ecm.EntityMatches e (typesOf Ts)) := by
    rw [FindView_of_none ecm Ts h]
    exact build_entities ecm Ts
  have n1 : (EachNoCache.trace ecm Ts g t).map Prod.fst
      = ecm.Entities.filter (fun e => ecm.EntityMatches e (typesOf Ts)) := by
    rw [EachNoCache_trace_eq]
    exact calls_neverStops _ (fun e st => hg e _ st) _ t
  have n2 : (EachNoCache_const.trace ecm Ts g t).map Prod.fst
      = ecm.Entities.filter (fun e => ecm.EntityMatches e (typesOf Ts)) := by
    rw [EachNoCache_const_trace_eq]
    exact calls_neverStops _ (fun e st => hg e _ st) _ t
  rw [h1, h2, n1, n2, hv]
  simp

/-- Witness for C15 on `exampleStore` and the types position and velocity: both
scans visit entities 1 and 3. -/
theorem Each_agrees_with_EachNoCache_witness :
    (exampleStore.FindViewByTypes (typesOf [Position, Velocity]) = none ∧
      countAll.NeverStops) ∧
    (EachNoCache.trace exampleStore [Position, Velocity] countAll 0).map Prod.fst = [1, 3] ∧
    ((Each.trace exampleStore [Position, Velocity] countAll 0).map Prod.fst
        = (EachNoCache.trace exampleStore [Position, Velocity] countAll 0).map Prod.fst ∧
      (Each_const.trace exampleStore [Position, Velocity] countAll 0).map Prod.fst
        = (EachNoCache_const.trace exampleStore [Position, Velocity] countAll 0).map Prod.fst ∧
      (Each.trace exampleStore [Position, Velocity] countAll 0).map Prod.fst
        = (Each_const.trace exampleStore [Position, Velocity] countAll 0).map Prod.fst ∧
      (Each.trace exampleStore [Position, Velocity] countAll 0).map Prod.fst
        = exampleStore.Entities.filter
            (fun e => exampleStore.EntityMatches e (typesOf [Position, Velocity])) ∧
      ∀ e, e ∈ (Each.trace exampleStore [Position, Velocity] countAll 0).map Prod.fst
        ↔ e ∈ exampleStore.Entities ∧
          exampleStore.EntityMatches e (typesOf [Position, Velocity]) = true) :=
  ⟨⟨rfl, countAll_neverStops⟩, by decide,
    Each_agrees_with_EachNoCache exampleStore [Position, Velocity] rfl
      countAll countAll_neverStops countAll countAll_neverStops 0 0⟩

/-! ## Safety of the lookup by component values -/

theorem scan_isSome_of_nonnull (ecm : EntityComponentManager) (kNullEntity : Entity)
    (desired : List (TypeInfo × ComponentData)) (l : List Entity) :
    (∀ e ∈ l, ∀ p ∈ desired, ecm.Component p.1 e ≠ none) →
    EntityByComponents.scan ecm kNullEntity desired l ≠ none := by
  intro hnn
  rw [scan_of_nonnull ecm kNullEntity desired l
    (fun e he => hnn e (List.takeWhile_subset _ he))]
  simp

/-- C16: on a freshly built view the null dereference of `EntityByComponents`
cannot happen. In every store where `EntityMatches` for the queried type set
implies a non-null component of each queried type, and where no view is cached
for that type set, every component lookup on an entity of the view gives a
non-null pointer, for each entity the comparison of all desired components
completes, and `EntityByComponents` returns an entity. -/
theorem EntityByComponents_safe_on_fresh_view (ecm : EntityComponentManager)
    (kNullEntity : Entity) (desired : List (TypeInfo × ComponentData))
    (hmatch : ∀ e, ecm.EntityMatches e (typesOf (desired.map Prod.fst)) = true →
      ∀ T ∈ desired.map Prod.fst, ecm.Component T e ≠ none)
    (hfresh : ecm.FindViewByTypes (typesOf (desired.map Prod.fst)) = none) :
    (∀ e ∈ (ecm.FindView (desired.map Prod.fst)).1.entities, ∀ p ∈ desired,
      (ecm.FindView (desired.map Prod.fst)).2.Component p.1 e ≠ none) ∧
    (∀ e ∈ (ecm.FindView (desired.map Prod.fst)).1.entities,
      EntityByComponents.compare (ecm.FindView (desired.map Prod.fst)).2 e desired false
        ≠ none) ∧
    (ecm.EntityByComponents kNullEntity desired).map Prod.fst ≠ none := by
  have hview : ∀ e ∈ (ecm.FindView (desired.map Prod.fst)).1.entities,
      ∀ p ∈ desired, ecm.Component p.1 e ≠ none := by
    intro e he p hp
    rw [FindView_of_none ecm _ hfresh, build_entities] at he
    exact hmatch e (List.mem_filter.mp he).2 p.1 (List.mem_map_of_mem Prod.fst hp)
  have hobs := (FindView_observers ecm (desired.map Prod.fst)).2.2.2.2.2.1
  refine ⟨?_, ?_, ?_⟩
  · intro e he p hp
    simp only [EntityComponentManager.Component, hobs]
    exact hview e he p hp
  · intro e he
    rw [compare_congr ecm _ hobs, compare_of_nonnull ecm e desired (hview e he)]
    simp
  · rw [EntityByComponents_eq]
    exact scan_isSome_of_nonnull ecm kNullEntity desired _ hview

/-- Witness for C16 on `exampleStore`, where an entity that matches position and
velocity has both components: the lookup returns the null entity 0, no entity
having the desired values, and no null pointer is met. -/
theorem EntityByComponents_safe_on_fresh_view_witness :
    ((∀ e, exampleStore.EntityMatches e
          (typesOf ([(Position, 1), (Velocity, 2)].map Prod.fst)) = true →
        ∀ T ∈ [(Position, 1), (Velocity, 2)].map Prod.fst, exampleStore.Component T e ≠ none) ∧
      exampleStore.FindViewByTypes
        (typesOf ([(Position, 1), (Velocity, 2)].map Prod.fst)) = none) ∧
    (exampleStore.EntityByComponents 0 [(Position, 1), (Velocity, 2)]).map Prod.fst = some 0 ∧
    (exampleStore.EntityByComponents 0 [(Position, 1), (Velocity, 2)]).map Prod.fst ≠ none :=
  have hmatch : ∀ e, exampleStore.EntityMatches e
        (typesOf ([(Position, 1), (Velocity, 2)].map Prod.fst)) = true →
      ∀ T ∈ [(Position, 1), (Velocity, 2)].map Prod.fst, exampleStore.Component T e ≠ none := by
    intro e he T hT
    have hsub : ({10, 20} : Finset ComponentTypeId) ⊆ exampleBindings e := by
      have h := of_decide_eq_true he
      exact h
    have hT' : ComponentType T ∈ ({10, 20} : Finset ComponentTypeId) := by
      simp only [List.map_cons, List.map_nil, List.mem_cons, List.mem_singleton,
        List.not_mem_nil, or_false] at hT
      rcases hT with rfl | rfl <;> decide
    have hmem := hsub hT'
    simp [EntityComponentManager.Component, exampleStore, hmem]
  ⟨⟨hmatch, rfl⟩, by decide,
    (EntityByComponents_safe_on_fresh_view exampleStore 0 [(Position, 1), (Velocity, 2)]
      hmatch rfl).2.2⟩

/-! ## Creating components -/

theorem foldl_Remove_issued (ks : List ComponentKey) :
    ∀ st : ComponentStorage, (ks.foldl (fun st k => st.Remove k.2) st).issued = st.issued := by
  induction ks with
  | nil => intro st; rfl
  | cons k ks ih => intro st; rw [List.foldl_cons, ih]; rfl

theorem foldl_Remove_instances (ks : List ComponentKey) :
    ∀ st : ComponentStorage,
      (ks.foldl (fun st k => st.Remove k.2) st).instances
        = st.instances.filter fun inst => !(ks.map Prod.snd).contains inst.1 := by
  induction ks with
  | nil => intro st; simp
  | cons k ks ih =>
    intro st
    rw [List.foldl_cons, ih]
    simp only [ComponentStorage.Remove, List.filter_filter, List.map_cons]
    congr 1
    funext inst
    by_cases h : inst.1 = k.2 <;> simp [h, List.contains_cons, bne, Bool.and_comm]

theorem lookup_replace (l : List (ComponentTypeId × ComponentStorage)) (t k : ComponentTypeId)
    (st : ComponentStorage) :
    (l.map fun p => if p.1 = t then (t, st) else p).lookup k
      = if k = t then (l.lookup t).map (fun _ => st) else l.lookup k := by
  induction l with
  | nil => simp
  | cons p rest ih =>
    obtain ⟨a, b⟩ := p
    by_cases hat : a = t
    · by_cases hkt : k = t
      · subst hat; subst hkt; simp [List.lookup_cons]
      · have hka : (k == a) = false := by simpa [hat] using hkt
        have hkt' : (k == t) = false := by simpa using hkt
        simp only [List.map_cons, hat, if_true, List.lookup_cons, hkt', ih, hkt, if_false]
    · by_cases hkt : k = t
      · have hta : (t == a) = false := by simpa using fun h : t = a => hat h.symm
        subst hkt
        simp only [List.map_cons, hat, if_false, List.lookup_cons, hta, ih, if_true]
      · simp only [List.map_cons, hat, if_false, List.lookup_cons, ih, hkt]

theorem foldl_Remove_empty (ks : List ComponentKey) :
    ks.foldl (fun st k => st.Remove k.2) ({} : ComponentStorage) = {} := by
  induction ks with
  | nil => rfl
  | cons k ks ih => rw [List.foldl_cons]; exact ih

theorem CreateComponentImplementation_of_some (ecm : EntityComponentManager) (e : Entity)
    (tid : ComponentTypeId) (v : ComponentData) (st : ComponentStorage)
    (h : ecm.components.lookup tid = some st) :
    ∃ ecm', ecm.CreateComponentImplementation e tid v = some ((tid, (st.issued : Int)), ecm') ∧
      ecm'.components.lookup tid
        = some ((((ecm.entityComponents e).filter fun k => k.1 == tid).foldl
            (fun st k => st.Remove k.2) st).Create v).2 ∧
      (∀ t, ecm'.HasComponentType t = ecm.HasComponentType t) ∧
      ecm'.entityComponents e
        = ((ecm.entityComponents e).filter fun k => k.1 != tid) ++ [(tid, (st.issued : Int))] ∧
      ecm'.ComponentImplementation e tid = some v ∧
      ecm'.ComponentImplementationByKey (tid, (st.issued : Int)) = some v ∧
      (∀ k ∈ (ecm.entityComponents e).filter fun k => k.1 == tid,
        k ≠ (tid, (st.issued : Int)) → ecm'.ComponentImplementationByKey k = none) ∧
      ecm'.views = ecm.views := by
  have hkey : ((((ecm.entityComponents e).filter fun k => k.1 == tid).foldl
      (fun st k => st.Remove k.2) st).Create v).1 = (st.issued : Int) := by
    simp [ComponentStorage.Create, foldl_Remove_issued]
  simp only [CreateComponentImplementation, h, hkey]
  refine ⟨_, rfl, ?_, ?_, ?_, ?_, ?_, ?_, rfl⟩
  · simp only [lookup_replace, h, if_true, Option.map_some']
  · intro t
    simp only [HasComponentType, lookup_replace]
    by_cases ht : t = tid
    · subst ht; simp [h]
    · simp [ht]
  · simp
  · simp
  · simp
  · intro k hk hne
    simp only [hne, if_false, hk, if_true]

theorem CreateComponent_spec (ecm : EntityComponentManager) (e : Entity) (T : TypeInfo)
    (v : ComponentData) :
    ∃ (n : Nat) (ecm' : EntityComponentManager),
      ecm.CreateComponent e T v = some ((ComponentType T, (n : Int)), ecm') ∧
      (∃ st', ecm'.components.lookup (ComponentType T) = some st' ∧ st'.issued = n + 1 ∧
        ((n : Int), v) ∈ st'.instances) ∧
      ecm'.entityComponents e
        = ((ecm.entityComponents e).filter fun k => k.1 != ComponentType T)
          ++ [(ComponentType T, (n : Int))] ∧
      ecm'.ComponentImplementation e (ComponentType T) = some v ∧
      ecm'.ComponentImplementationByKey (ComponentType T, (n : Int)) = some v ∧
      (∀ k ∈ (ecm.entityComponents e).filter fun k => k.1 == ComponentType T,
        k ≠ (ComponentType T, (n : Int)) → ecm'.ComponentImplementationByKey k = none) ∧
      ecm'.views = ecm.views := by
  cases hl : ecm.components.lookup (ComponentType T) with
  | none =>
    have hhas : ecm.HasComponentType (ComponentType T) = false := by
      simp [HasComponentType, hl]
    have hreg : (ecm.RegisterComponentType (ComponentType T) {}).components.lookup
        (ComponentType T) = some {} := by
      simp [RegisterComponentType, hhas, List.lookup_cons]
    obtain ⟨ecm', h1, h2, -, h4, h5, h6, h7, h8⟩ :=
      CreateComponentImplementation_of_some (ecm.RegisterComponentType (ComponentType T) {})
        e (ComponentType T) v {} hreg
    have hreg' : ecm.RegisterComponentType (ComponentType T) {}
        = { ecm with components := (ComponentType T, {}) :: ecm.components } := by
      simp [RegisterComponentType, hhas]
    refine ⟨0, ecm', ?_, ⟨_, h2, ?_, ?_⟩, ?_, h5, h6, ?_, ?_⟩
    · simpa [CreateComponent, hhas] using h1
    · simp [ComponentStorage.Create, foldl_Remove_issued]
    · simp [ComponentStorage.Create, foldl_Remove_issued]
    · rw [h4, hreg']
    · rw [hreg'] at h7; exact h7
    · rw [h8, hreg']
  | some st =>
    have hhas : ecm.HasComponentType (ComponentType T) = true := by
      simp [HasComponentType, hl]
    obtain ⟨ecm', h1, h2, -, h4, h5, h6, h7, h8⟩ :=
      CreateComponentImplementation_of_some ecm e (ComponentType T) v st hl
    refine ⟨st.issued, ecm', ?_, ⟨_, h2, ?_, ?_⟩, h4, h5, h6, h7, h8⟩
    · simpa [CreateComponent, hhas] using h1
    · simp [ComponentStorage.Create, foldl_Remove_issued]
    · simp [ComponentStorage.Create, foldl_Remove_issued]

/-- C11: `CreateComponent` succeeds whether or not the component type has
storage. It returns a key with the id of the type, `HasComponentType` holds for
that id afterwards, and the registration of every other id is as before. When
the type had no storage, `CreateComponentImplementation` alone would have
failed; `CreateComponent` first registers an empty storage for the id and then
creates the component through `CreateComponentImplementation` with that id, so
that the component gets the first id of the new storage. When the type had
storage, nothing is registered: the component is created through
`CreateComponentImplementation` on the store as it was, in the storage already
there, which goes on issuing ids where it had stopped. -/
theorem CreateComponent_registers_unseen_type (ecm : EntityComponentManager)
    (e : Entity) (T : TypeInfo) (v : ComponentData) :
    ∃ key ecm', ecm.CreateComponent e T v = some (key, ecm') ∧
      key.1 = ComponentType T ∧
      ecm'.HasComponentType (ComponentType T) = true ∧
      (∀ t, t ≠ ComponentType T → ecm'.HasComponentType t = ecm.HasComponentType t) ∧
      (ecm.HasComponentType (ComponentType T) = false →
        ecm.CreateComponentImplementation e (ComponentType T) v = none ∧
        (ecm.RegisterComponentType (ComponentType T) {}).components
          = (ComponentType T, {}) :: ecm.components ∧
        ecm.CreateComponent e T v
          = (ecm.RegisterComponentType (ComponentType T) {}).CreateComponentImplementation
              e (ComponentType T) v ∧
        key.2 = 0 ∧
        ecm'.components.lookup (ComponentType T) = some { issued := 1, instances := [(0, v)] }) ∧
      (ecm.HasComponentType (ComponentType T) = true →
        ecm.RegisterComponentType (ComponentType T) {} = ecm ∧
        ecm.CreateComponent e T v
          = ecm.CreateComponentImplementation e (ComponentType T) v ∧
        ∃ st, ecm.components.lookup (ComponentType T) = some st ∧ key.2 = st.issued ∧
          ecm'.components.lookup (ComponentType T)
            = some ((((ecm.entityComponents e).filter fun k => k.1 == ComponentType T).foldl
                (fun st k => st.Remove k.2) st).Create v).2) := by
  cases hl : ecm.components.lookup (ComponentType T) with
  | none =>
    have hhas : ecm.HasComponentType (ComponentType T) = false := by
      simp [HasComponentType, hl]
    have hreg' : ecm.RegisterComponentType (ComponentType T) {}
        = { ecm with components := (ComponentType T, {}) :: ecm.components } := by
      simp [RegisterComponentType, hhas]
    have hreg : (ecm.RegisterComponentType (ComponentType T) {}).components.lookup
        (ComponentType T) = some {} := by
      simp [hreg', List.lookup_cons]
    have hcc : ecm.CreateComponent e T v
        = (ecm.RegisterComponentType (ComponentType T) {}).CreateComponentImplementation
            e (ComponentType T) v := by
      simp [CreateComponent, hhas]
    obtain ⟨ecm', h1, h2, h3, -⟩ :=
      CreateComponentImplementation_of_some (ecm.RegisterComponentType (ComponentType T) {})
        e (ComponentType T) v {} hreg
    refine ⟨_, ecm', hcc.trans h1, rfl, ?_, ?_, ?_, ?_⟩
    · rw [h3]; simp [HasComponentType, hreg]
    · intro t ht
      rw [h3, hreg']
      have hne : (t == ComponentType T) = false := by simpa using ht
      simp [HasComponentType, List.lookup_cons, hne]
    · intro _
      refine ⟨by simp [CreateComponentImplementation, hl], by rw [hreg'], hcc, rfl, ?_⟩
      rw [h2, foldl_Remove_empty]
      rfl
    · intro h; rw [hhas] at h; exact absurd h (by decide)
  | some st =>
    have hhas : ecm.HasComponentType (ComponentType T) = true := by
      simp [HasComponentType, hl]
    have hcc : ecm.CreateComponent e T v
        = ecm.CreateComponentImplementation e (ComponentType T) v := by
      simp [CreateComponent, hhas]
    obtain ⟨ecm', h1, h2, h3, -⟩ :=
      CreateComponentImplementation_of_some ecm e (ComponentType T) v st hl
    refine ⟨_, ecm', hcc.trans h1, rfl, ?_, ?_, ?_, ?_⟩
    · rw [h3]; exact hhas
    · intro t _; exact h3 t
    · intro h; rw [hhas] at h; exact absurd h (by decide)
    · intro _
      exact ⟨by simp [RegisterComponentType, hhas], hcc, st, rfl, rfl, h2⟩

/-- Witness for C11 on `exampleStore`, where no component type is registered:
creating a velocity for entity 2 succeeds with the key `(20, 0)` and leaves the
type registered; creating a second component of the type, for entity 3, gets the
next id of the same storage. -/
theorem CreateComponent_registers_unseen_type_witness :
    exampleStore.HasComponentType (ComponentType Velocity) = false ∧
    (exampleStore.CreateComponent 2 Velocity 7).map Prod.fst = some (20, 0) ∧
    (exampleStore.CreateComponent 2 Velocity 7).map
        (fun r => r.2.HasComponentType (ComponentType Velocity)) = some true ∧
    ((exampleStore.CreateComponent 2 Velocity 7).bind
        fun r => (r.2.CreateComponent 3 Velocity 8).map Prod.fst) = some (20, 1) ∧
    ∃ key ecm', exampleStore.CreateComponent 2 Velocity 7 = some (key, ecm') ∧
      key.1 = ComponentType Velocity ∧
      ecm'.HasComponentType (ComponentType Velocity) = true :=
  ⟨by decide, by decide, by decide, by decide,
    (CreateComponent_registers_unseen_type exampleStore 2 Velocity 7).imp
      fun _ h => h.imp fun _ h' => ⟨h'.1, h'.2.1, h'.2.2.1⟩⟩

/-! ## Binding a type twice -/

theorem filter_ne_filter_eq (l : List ComponentKey) (tid : ComponentTypeId) :
    (l.filter fun k => k.1 != tid).filter (fun k => k.1 == tid) = [] := by
  simp [List.filter_filter, List.filter_eq_nil_iff]

theorem filter_ne_filter_ne (l : List ComponentKey) (tid : ComponentTypeId) :
    (l.filter fun k => k.1 != tid).filter (fun k => k.1 != tid)
      = l.filter fun k => k.1 != tid := by
  simp [List.filter_filter]

/-- C13: calling `CreateComponent<T>` on an entity with value `v1` and then with
value `v2` succeeds both times and leaves the entity with exactly one binding of
type `T`, the key the second call returned; `Component<T>` of the entity then
gives `v2`, as does the lookup by that key, the key the first call returned is a
different one and no longer gives a component, and the other bindings of the
entity are what they were before the first call. -/
theorem CreateComponent_twice_rebinds (ecm : EntityComponentManager) (E : Entity)
    (T : TypeInfo) (v1 v2 : ComponentData) :
    ∃ k1 ecm1 k2 ecm2,
      ecm.CreateComponent E T v1 = some (k1, ecm1) ∧
      ecm1.CreateComponent E T v2 = some (k2, ecm2) ∧
      (ecm2.entityComponents E).filter (fun k => k.1 == ComponentType T) = [k2] ∧
      ((ecm2.entityComponents E).filter fun k => k.1 == ComponentType T).length = 1 ∧
      ecm2.Component T E = some v2 ∧
      ecm2.ComponentByKey k2 = some v2 ∧
      k1 ≠ k2 ∧
      ecm2.ComponentByKey k1 = none ∧
      (ecm2.entityComponents E).filter (fun k => k.1 != ComponentType T)
        = (ecm.entityComponents E).filter (fun k => k.1 != ComponentType T) := by
  obtain ⟨n1, ecm1, c1, ⟨st1, l1, i1, -⟩, b1, -, -, -, -⟩ := CreateComponent_spec ecm E T v1
  obtain ⟨ecm2, c2, -, -, b2, p2, q2, d2, -⟩ :=
    CreateComponentImplementation_of_some ecm1 E (ComponentType T) v2 st1 l1
  have hhas : ecm1.HasComponentType (ComponentType T) = true := by
    simp [HasComponentType, l1]
  have c2' : ecm1.CreateComponent E T v2
      = some ((ComponentType T, (st1.issued : Int)), ecm2) := by
    simpa [CreateComponent, hhas] using c2
  have hne : ((ComponentType T, (n1 : Int)) : ComponentKey)
      ≠ (ComponentType T, (st1.issued : Int)) := by
    rw [i1]
    intro h
    have h' : (n1 : Int) = ((n1 + 1 : Nat) : Int) := congrArg Prod.snd h
    omega
  have hb2 : ecm2.entityComponents E
      = ((ecm.entityComponents E).filter fun k => k.1 != ComponentType T)
        ++ [(ComponentType T, (st1.issued : Int))] := by
    rw [b2, b1]
    simp [List.filter_append, filter_ne_filter_ne]
  have hone : (ecm2.entityComponents E).filter (fun k => k.1 == ComponentType T)
      = [(ComponentType T, (st1.issued : Int))] := by
    rw [hb2]
    simp [List.filter_append, filter_ne_filter_eq]
  refine ⟨_, ecm1, _, ecm2, c1, c2', hone, by rw [hone]; rfl, p2, q2, hne, ?_, ?_⟩
  · apply d2 _ _ hne
    rw [b1]
    simp [List.filter_append]
  · rw [hb2]
    simp [List.filter_append, filter_ne_filter_ne]

/-- Witness for C13 on `exampleStore`: after creating a velocity for entity 2
with value 7 and again with value 8, entity 2 has the one velocity binding
`(20, 1)` and its velocity is 8. -/
theorem CreateComponent_twice_rebinds_witness :
    ((exampleStore.CreateComponent 2 Velocity 7).bind
        fun r => (r.2.CreateComponent 2 Velocity 8).map
          fun r' => (r'.2.entityComponents 2, r'.2.Component Velocity 2))
      = some ([(20, 1)], some 8) ∧
    ∃ k1 ecm1 k2 ecm2,
      exampleStore.CreateComponent 2 Velocity 7 = some (k1, ecm1) ∧
      ecm1.CreateComponent 2 Velocity 8 = some (k2, ecm2) ∧
      ((ecm2.entityComponents 2).filter fun k => k.1 == ComponentType Velocity).length = 1 ∧
      ecm2.Component Velocity 2 = some 8 :=
  ⟨by decide,
    (CreateComponent_twice_rebinds exampleStore 2 Velocity 7 8).imp fun _ h =>
      h.imp fun _ h' => h'.imp fun _ h'' => h''.imp fun _ g =>
        ⟨g.1, g.2.1, g.2.2.2.1, g.2.2.2.2.1⟩⟩

/-! ## Lookup by component values in a store in sync -/

end ignition.gazebo
